import Mathlib

/-!
ReviewKing client (`templates/js/bookmarklet.js`): filtering and ranking, page
loading, the cursor, single import and skip, bulk import, page detection, the
modal click listener and control insertion, client-side image extraction.

A shallow embedding of the review triage client.  The class `ReviewKingClient`
keeps its session in mutable fields; here every method becomes a function from
the state before the call to the state after it.

Modelling conventions

* JavaScript numbers carried by reviews (`rating`, `quality_score`) are integers
  (a 0-100 score, a 1-5 star count, a 0-10 quality mark).  On integers the
  double arithmetic of the source is exact for every operation used here; in
  particular `Math.ceil((r / 100) * 5)` is the mathematical ceiling of `r / 20`.
* An absent (`undefined` / `null`) string field is the empty string and an
  absent `images` field is the empty list: every expression of the source that
  reads these fields (`a.text || a.body || ''`, `r.images && r.images.length`)
  treats the two alike.
* `Array.prototype.sort` is a stable sort (ECMAScript 2019).  For a consistent
  comparator its result is uniquely determined: the stable sorted permutation.
  It is embedded as a stable insertion sort.
* Rendering (`displayReview`, `console.log`, the progress display) writes no
  session field, is taken not to throw, and is left out.
* Responses are well typed: `reviews` is a list of reviews and `pagination` an
  object with `has_next` and `page`.
* The host page enters as data: the URL as a string, the nodes matched by each
  selector as lists, the presence of a container at a time as a function of
  time in milliseconds, event handlers by identity.
-/

namespace ReviewKing

/-! ## Strings -/

/-- White space and line terminator code points stripped by
`String.prototype.trim`. -/
def jsIsWhiteSpace (c : Char) : Bool :=
  let n := c.toNat
  n == 0x09 || n == 0x0A || n == 0x0B || n == 0x0C || n == 0x0D || n == 0x20 ||
  n == 0xA0 || n == 0x1680 || (0x2000 ≤ n && n ≤ 0x200A) || n == 0x2028 ||
  n == 0x2029 || n == 0x202F || n == 0x205F || n == 0x3000 || n == 0xFEFF

/-- The method `String.prototype.trim`: leading and trailing white space removed. -/
def jsTrim (s : String) : String :=
  ⟨((s.data.dropWhile jsIsWhiteSpace).reverse.dropWhile jsIsWhiteSpace).reverse⟩

/-- The property `String.prototype.length`: the number of UTF-16 code units. -/
def jsLength (s : String) : Nat :=
  (s.data.map (fun c => if c.toNat < 0x10000 then 1 else 2)).sum

/-- The expression `x || 0` on a number. -/
def orZero (x : Int) : Int := if x = 0 then 0 else x

/-! ## Data model -/

/-- A review as delivered by the backend (the fields read by the engine). -/
structure Review where
  id : String
  ai_recommended : Bool
  text : String
  body : String
  images : List String
  rating : Int
  quality_score : Int
  country : String
deriving DecidableEq, Repr

/-- The field `pagination` of the client. -/
structure Pagination where
  has_next : Bool
  page : Nat
deriving DecidableEq, Repr

/-- The field `stats` of the client.  `total` is absent until the first
`applyFilter` or successful `loadReviews`. -/
structure Stats where
  total : Option Nat
  with_photos : Nat
  ai_recommended : Nat
  reviews_45star : Nat
  reviews_3star : Nat
deriving DecidableEq, Repr

/-- The selected target product (`selectedProduct`). -/
structure Product where
  id : String
  title : String
deriving DecidableEq, Repr

/-- The session fields of `ReviewKingClient`.  `useSmartSort` is not assigned
by the constructor, hence optional. -/
structure Client where
  sessionId : String
  selectedProduct : Option Product
  allReviews : List Review
  reviews : List Review
  currentFilter : String
  selectedCountry : String
  currentIndex : Nat
  pagination : Pagination
  stats : Stats
  isImporting : Bool
  useSmartSort : Option Bool
deriving DecidableEq, Repr

/-- The state set up by the constructor, for a given random session id. -/
def Client.initial (sessionId : String) : Client where
  sessionId := sessionId
  selectedProduct := none
  allReviews := []
  reviews := []
  currentFilter := "all"
  selectedCountry := "all"
  currentIndex := 0
  pagination := { has_next := false, page := 1 }
  stats := { total := none, with_photos := 0, ai_recommended := 0,
             reviews_45star := 0, reviews_3star := 0 }
  isImporting := false
  useSmartSort := none

/-! ## Ranking -/

/-- The expression `(a.text || a.body || '').trim()`. -/
def trimmedText (a : Review) : String :=
  jsTrim (if a.text ≠ "" then a.text else if a.body ≠ "" then a.body else "")

/-- The expression `(a.images && a.images.length) || 0`. -/
def photoCount (a : Review) : Nat := a.images.length

/-- The comparator handed to `sort` in `smartSort`. -/
def smartSortCompare (a b : Review) : Int :=
  -- 1. AI Recommended first
  if a.ai_recommended && !b.ai_recommended then -1
  else if !a.ai_recommended && b.ai_recommended then 1
  else
    -- 2. has text content
    let aText := trimmedText a
    let bText := trimmedText b
    let aHasText := decide (jsLength aText ≥ 10)
    let bHasText := decide (jsLength bText ≥ 10)
    if aHasText && !bHasText then -1
    else if !aHasText && bHasText then 1
    else
      -- 3. has photos, more photos first
      let aPhotos := photoCount a
      let bPhotos := photoCount b
      if aPhotos > 0 ∧ bPhotos = 0 then -1
      else if aPhotos = 0 ∧ bPhotos > 0 then 1
      else if aPhotos ≠ bPhotos then (bPhotos : Int) - (aPhotos : Int)
      else
        -- 4. higher rating first
        let aRating := orZero a.rating
        let bRating := orZero b.rating
        if aRating ≠ bRating then bRating - aRating
        -- 5. longer text first
        else if jsLength aText ≠ jsLength bText then
          (jsLength bText : Int) - (jsLength aText : Int)
        else
          -- 6. higher quality score as tiebreaker
          let aQuality := orZero a.quality_score
          let bQuality := orZero b.quality_score
          bQuality - aQuality

/-- The method `Array.prototype.sort` with a comparator: a stable sort placing
`a` before `b` when the comparator is negative and keeping the input order of
elements that compare equal. -/
def jsSort {α : Type} (cmp : α → α → Int) (l : List α) : List α :=
  l.insertionSort (fun a b => cmp a b ≤ 0)

/-- The method `smartSort`. -/
def smartSort (reviews : List Review) : List Review :=
  jsSort smartSortCompare reviews

/-! ## Star normalisation and statistics -/

/-- The expression `r.rating > 5 ? Math.ceil((r.rating / 100) * 5) : r.rating`. -/
def normalizedStar (rating : Int) : Int :=
  if rating > 5 then Int.ceil (((rating : ℚ) / 100) * 5) else rating

/-- The predicate of `reviews45star` (in `applyFilter`, `loadReviews`, `import45Star`). -/
def is45Star (r : Review) : Bool :=
  let rating := normalizedStar r.rating
  rating == 4 || rating == 5

/-- The predicate of `reviews3star` (in `applyFilter`, `loadReviews`, `import3Star`). -/
def is3Star (r : Review) : Bool :=
  let rating := normalizedStar r.rating
  rating == 3

/-- The predicate `r.images && r.images.length > 0`. -/
def hasPhotos (r : Review) : Bool := decide (r.images.length > 0)

/-! ## Filtering -/

/-- Step 1 of `applyFilter`: the star rating / category filter. -/
def categoryFilter (currentFilter : String) (filtered : List Review) : List Review :=
  if currentFilter = "photos" then filtered.filter hasPhotos
  else if currentFilter = "ai_recommended" then filtered.filter (fun r => r.ai_recommended)
  else if currentFilter = "4-5stars" then filtered.filter (fun r => decide (r.rating ≥ 70))
  else if currentFilter = "3stars" then
    filtered.filter (fun r => decide (r.rating ≥ 50) && decide (r.rating < 70))
  else if currentFilter = "5stars" then filtered.filter (fun r => decide (r.rating ≥ 90))
  else filtered

/-- Step 2 of `applyFilter`: the country filter. -/
def countryFilter (selectedCountry : String) (filtered : List Review) : List Review :=
  if selectedCountry ≠ "all" then filtered.filter (fun r => r.country == selectedCountry)
  else filtered

/-- The method `applyFilter`. -/
def applyFilter (s : Client) : Client :=
  let filtered := s.allReviews
  let filtered := categoryFilter s.currentFilter filtered
  let filtered := countryFilter s.selectedCountry filtered
  let filtered := smartSort filtered
  let reviews45star := s.allReviews.filter is45Star
  let reviews3star := s.allReviews.filter is3Star
  { s with
    reviews := filtered
    currentIndex := 0
    stats :=
      { s.stats with
        total := some s.allReviews.length
        with_photos := (s.allReviews.filter hasPhotos).length
        ai_recommended := (s.allReviews.filter (fun r => r.ai_recommended)).length
        reviews_45star := reviews45star.length
        reviews_3star := reviews3star.length } }

/-- The method `setFilter`. -/
def setFilter (s : Client) (filter : String) : Client :=
  applyFilter { s with currentFilter := filter }

/-- The method `setCountry`. -/
def setCountry (s : Client) (country : String) : Client :=
  applyFilter { s with selectedCountry := country }

/-- The subset computed by `import45Star`: `this.allReviews.filter(...)` on the
normalised star being 4 or 5. -/
def import45StarSubset (s : Client) : List Review := s.allReviews.filter is45Star

/-- The subset computed by `import3Star`: `this.allReviews.filter(...)` on the
normalised star being 3. -/
def import3StarSubset (s : Client) : List Review := s.allReviews.filter is3Star

/-! ## The filter predicates, as specified -/

/-- The category predicate in words: all, true; photos, images non-empty;
ai_recommended, flag set; 4-5stars, rating at least 70; 3stars, rating from 50
up to but excluding 70; 5stars, rating at least 90.  Any other filter name
restricts nothing. -/
def specCategoryPredicate (filter : String) (r : Review) : Bool :=
  if filter = "all" then true
  else if filter = "photos" then !r.images.isEmpty
  else if filter = "ai_recommended" then r.ai_recommended
  else if filter = "4-5stars" then decide (70 ≤ r.rating)
  else if filter = "3stars" then decide (50 ≤ r.rating ∧ r.rating < 70)
  else if filter = "5stars" then decide (90 ≤ r.rating)
  else true

/-- The country predicate in words: the country of the review equals the
selected country exactly, or the selected country is all. -/
def specCountryPredicate (selectedCountry : String) (r : Review) : Bool :=
  decide (r.country = selectedCountry ∨ selectedCountry = "all")

/-- The dual-scale star rule on integers: a rating above 5 is a 0-100 score
and becomes the ceiling of rating / 20, computed as (rating + 19) / 20; a
rating of at most 5 is already a star value. -/
def specStar (rating : Int) : Int :=
  if 5 < rating then (rating + 19) / 20 else rating

/-! ## Sample data -/

/-- Review A of the ranking example: recommended, short text, no image. -/
def sampleA : Review :=
  { id := "a", ai_recommended := true, text := "short", body := "", images := [],
    rating := 50, quality_score := 1, country := "US" }

/-- Review B of the ranking example: not recommended, detailed, one image. -/
def sampleB : Review :=
  { id := "b", ai_recommended := false, text := "a very detailed review text", body := "",
    images := ["x"], rating := 90, quality_score := 9, country := "DE" }

/-! ## The ranking order, as specified -/

/-- Descending lexicographic comparison of two key lists: the first position
at which they differ decides, and the list with the larger key there comes
first. -/
def descLex : List Int → List Int → Prop
  | x :: xs, y :: ys => if x ≠ y then y < x else descLex xs ys
  | _, _ => False

/-- Decision procedure for `descLex`. -/
instance descLexDecidable : (xs ys : List Int) → Decidable (descLex xs ys)
  | [], _ => isFalse (by simp [descLex])
  | _ :: _, [] => isFalse (by simp [descLex])
  | x :: xs, y :: ys =>
    if h : x ≠ y then
      if h2 : y < x then isTrue (by simp only [descLex, if_pos h]; exact h2)
      else isFalse (by simp only [descLex, if_pos h]; exact h2)
    else
      match descLexDecidable xs ys with
      | isTrue h3 => isTrue (by simp only [descLex, if_neg h]; exact h3)
      | isFalse h3 => isFalse (by simp only [descLex, if_neg h]; exact h3)

/-- The ranking keys of a review in priority order: recommended; meaningful
text (trimmed length at least 10); has images, then image count; raw rating;
trimmed text length; quality score.  A larger key is better. -/
def sortKeys (a : Review) : List Int :=
  [ if a.ai_recommended then 1 else 0,
    if 10 ≤ jsLength (trimmedText a) then 1 else 0,
    if 0 < a.images.length then 1 else 0,
    (a.images.length : Int),
    a.rating,
    (jsLength (trimmedText a) : Int),
    a.quality_score ]

/-- The six-key priority in words: `a` ranks before `b` when, at the first key
on which they differ, `a` has the better value. -/
def ranksBefore (a b : Review) : Prop := descLex (sortKeys a) (sortKeys b)

instance ranksBeforeDecidable (a b : Review) : Decidable (ranksBefore a b) := by
  unfold ranksBefore; infer_instance

/-- A review rated 4 on the 1-5 scale. -/
def sampleStar4 : Review :=
  { id := "c", ai_recommended := false, text := "good value for the money", body := "",
    images := [], rating := 4, quality_score := 6, country := "FR" }

/-- A review rated 65 on the 0-100 scale. -/
def sampleScore65 : Review :=
  { id := "d", ai_recommended := false, text := "works as described", body := "",
    images := [], rating := 65, quality_score := 5, country := "FR" }

/-- A session holding the two reviews rated 4 and 65. -/
def sampleStarClient : Client :=
  { Client.initial "p7w2c8d4r" with allReviews := [sampleStar4, sampleScore65] }

/-- A session holding the two sample reviews, as after the constructor. -/
def sampleClient : Client :=
  { Client.initial "k3x9q2m1z" with allReviews := [sampleB, sampleA] }

/-! ## Effects and asynchronous operations

An `async` method is split at its `await`: the part run by the call, up to and
including the `fetch`, and the part run when the request has completed, applied
to the state found at that moment.  Each part returns the state after it and
the effects it performed, in order. -/

/-- The six bulk import operations: `importAllReviews`, `importWithPhotos`,
`importWithoutPhotos`, `importAIRecommended`, `import45Star`, `import3Star`. -/
inductive BulkKind
  | all
  | withPhotos
  | withoutPhotos
  | aiRecommended
  | star45
  | star3
deriving DecidableEq, Repr

/-- The messages shown with `alert`, named by the place that shows them. -/
inductive Alert
  /-- The message 'Please select a target product first!'. -/
  | selectTargetFirst
  /-- The message 'No reviews available to import. Please load reviews first.'. -/
  | noReviewsAvailable
  /-- The message 'No ... reviews found for this product.' of a bulk import. -/
  | emptySubset (k : BulkKind)
  /-- The message 'No more reviews!'. -/
  | noMoreReviews
  /-- The message of `importReview` for a duplicate. -/
  | importDuplicate
  /-- The message of `importReview` for a new import. -/
  | importDone
  /-- The message 'Failed to import: ...'. -/
  | importFailed
  /-- The message 'Import failed. Please try again.'. -/
  | importException
  /-- The message 'Review skipped. It will not be included in bulk import.'. -/
  | skipDone
  /-- The message 'Failed to skip review: ...'. -/
  | skipFailed
  /-- The message 'Skip failed. Please try again.'. -/
  | skipException
deriving DecidableEq, Repr

/-- The JSON body posted to `/admin/reviews/import/bulk`.  The member
`filters: { min_quality_score: 0 }` is sent by `importAllReviews` only. -/
structure BulkBody where
  reviews : List Review
  shopify_product_id : String
  session_id : String
  platform : String
  min_quality_score : Option Int
deriving DecidableEq, Repr

/-- What an operation does besides writing session fields. -/
inductive Effect
  /-- A call of `alert`. -/
  | alert (a : Alert)
  /-- A call of `confirm`, asking to import `count` reviews and warning about
  `negatives` negative ones (no warning when 0). -/
  | confirm (count negatives : Nat)
  /-- The request `POST /admin/reviews/import/bulk`. -/
  | bulkRequest (body : BulkBody)
  /-- The request `POST /admin/reviews/import/single`. -/
  | singleRequest (review : Review) (shopify_product_id session_id : String)
  /-- The request `POST /admin/reviews/skip`. -/
  | skipRequest (review_id session_id : String)
  /-- The request `GET /admin/reviews/import/url` for a page. -/
  | pageRequest (page : Nat) (session_id : String)
  /-- The analytics request `GET /e`. -/
  | analytics (session_id : String)
  /-- A call of `showError`. -/
  | showError
deriving DecidableEq, Repr

/-- Whether an effect is a network request (a call of `fetch`). -/
def Effect.isRequest : Effect → Bool
  | .bulkRequest _ => true
  | .singleRequest _ _ _ => true
  | .skipRequest _ _ => true
  | .pageRequest _ _ => true
  | .analytics _ => true
  | _ => false

/-- Whether an effect is a confirmation dialog. -/
def Effect.isConfirm : Effect → Bool
  | .confirm _ _ => true
  | _ => false

/-- How an awaited request ends: a parsed JSON response, or a rejected `fetch`
or unparsable response, which throws into the `catch` block. -/
inductive Outcome (α : Type)
  | response (result : α)
  | exception
deriving DecidableEq, Repr

/-- The response of the page request, as far as `loadReviews` stores it.  An
absent `session_id` is the empty string. -/
structure PageResult where
  session_id : String
  success : Bool
  reviews : List Review
  pagination : Pagination
deriving DecidableEq, Repr

/-- The response of the single import request. -/
structure SingleResult where
  success : Bool
  duplicate : Bool
deriving DecidableEq, Repr

/-- The response of the skip request. -/
structure SkipResult where
  success : Bool
deriving DecidableEq, Repr

/-- The response of the bulk import request. -/
structure BulkResult where
  success : Bool
deriving DecidableEq, Repr

/-! ## Loading a page -/

/-- The method `loadReviews(page)`, up to its `fetch`: it writes no session field. -/
def loadReviews (page : Nat) (s : Client) : Client × List Effect :=
  (s, [.pageRequest page s.sessionId])

/-- The method `loadReviews`, from the parsed response on. -/
def loadReviewsDone (o : Outcome PageResult) (s : Client) : Client × List Effect :=
  match o with
  | .exception => (s, [.showError])
  | .response result =>
    -- Save session_id if returned
    let s := if result.session_id ≠ "" then { s with sessionId := result.session_id } else s
    if result.success then
      let s := { s with
        allReviews := result.reviews
        currentIndex := 0
        pagination := result.pagination }
      let s := { s with
        stats :=
          { s.stats with
            total := some s.allReviews.length
            with_photos := (s.allReviews.filter hasPhotos).length
            ai_recommended :=
              (s.allReviews.filter (fun r : Review => r.ai_recommended)).length } }
      -- Smart fallback
      let aiRecommendedCount :=
        (s.allReviews.filter (fun r : Review => r.ai_recommended)).length
      let s :=
        if s.currentFilter = "ai_recommended" ∧ aiRecommendedCount < 3 then
          { s with currentFilter := "all", useSmartSort := some true }
        else { s with useSmartSort := some false }
      (applyFilter s, [])
    else (s, [.showError])

/-! ## Cursor -/

/-- The method `nextReview`. -/
def nextReview (s : Client) : Client × List Effect :=
  if (s.currentIndex : Int) < (s.reviews.length : Int) - 1 then
    ({ s with currentIndex := s.currentIndex + 1 }, [])
  else if s.pagination.has_next then loadReviews (s.pagination.page + 1) s
  else (s, [.alert .noMoreReviews])

/-- The method `prevReview`. -/
def prevReview (s : Client) : Client :=
  if s.currentIndex > 0 then { s with currentIndex := s.currentIndex - 1 } else s

/-! ## Single import and skip -/

/-- The method `importReview`, up to its `fetch`.  When the view has no review
at the cursor, reading `review.id` throws inside the `try` block. -/
def importReview (s : Client) : Client × List Effect :=
  match s.selectedProduct with
  | none => (s, [.alert .selectTargetFirst])
  | some product =>
    match s.reviews[s.currentIndex]? with
    | none => (s, [.alert .importException])
    | some review => (s, [.singleRequest review product.id s.sessionId])

/-- The method `importReview`, from the parsed response on. -/
def importReviewDone (o : Outcome SingleResult) (s : Client) : Client × List Effect :=
  match o with
  | .exception => (s, [.alert .importException])
  | .response result =>
    if result.success then
      if result.duplicate then
        -- no auto-advance for duplicates
        (s, [.analytics s.sessionId, .alert .importDuplicate])
      else
        ((nextReview s).1, [.analytics s.sessionId, .alert .importDone] ++ (nextReview s).2)
    else (s, [.alert .importFailed])

/-- The method `skipReview`, up to its `fetch`. -/
def skipReview (s : Client) : Client × List Effect :=
  match s.reviews[s.currentIndex]? with
  | none => (s, [.alert .skipException])
  | some review => (s, [.skipRequest review.id s.sessionId])

/-- The method `skipReview`, from the parsed response on. -/
def skipReviewDone (o : Outcome SkipResult) (s : Client) : Client × List Effect :=
  match o with
  | .exception => (s, [.alert .skipException])
  | .response result =>
    if result.success then ((nextReview s).1, .alert .skipDone :: (nextReview s).2)
    else (s, [.alert .skipFailed])

/-! ## Bulk import -/

/-- The method `showImportLoader`: the progress display apart, it raises the busy flag. -/
def showImportLoader (s : Client) : Client := { s with isImporting := true }

/-- The method `hideImportLoader`: the progress display apart, it clears the busy flag. -/
def hideImportLoader (s : Client) : Client := { s with isImporting := false }

/-- The predicate of `negativeReviews`: normalised star at most 2. -/
def isNegative (r : Review) : Bool :=
  let rating := normalizedStar r.rating
  decide (rating ≤ 2)

/-- The reviews a bulk import sends, computed from `this.allReviews`. -/
def BulkKind.select : BulkKind → List Review → List Review
  | .all, allReviews => allReviews
  | .withPhotos, allReviews => allReviews.filter hasPhotos
  | .withoutPhotos, allReviews => allReviews.filter (fun r => decide (r.images.length = 0))
  | .aiRecommended, allReviews => allReviews.filter (fun r => r.ai_recommended)
  | .star45, allReviews => allReviews.filter is45Star
  | .star3, allReviews => allReviews.filter is3Star

/-- Whether the operation tests its subset for emptiness (all but `importAllReviews`). -/
def BulkKind.checksSubset : BulkKind → Bool
  | .all => false
  | _ => true

/-- The number of negative reviews named in the confirmation (`import45Star`
and `import3Star` count none). -/
def BulkKind.negatives : BulkKind → List Review → Nat
  | .star45, _ => 0
  | .star3, _ => 0
  | _, subset => (subset.filter isNegative).length

/-- The member `filters` of the request body. -/
def BulkKind.minQualityScore : BulkKind → Option Int
  | .all => some 0
  | _ => none

/-- A bulk import method up to its `fetch`; `userConfirms` is the answer given
to `confirm`, read only when the dialog is shown. -/
def bulkImport (k : BulkKind) (userConfirms : Bool) (s : Client) : Client × List Effect :=
  if s.isImporting then (s, [])
  else
    match s.selectedProduct with
    | none => (s, [.alert .selectTargetFirst])
    | some product =>
      if s.allReviews.length = 0 then (s, [.alert .noReviewsAvailable])
      else
        let subset := k.select s.allReviews
        if k.checksSubset ∧ subset.length = 0 then (s, [.alert (.emptySubset k)])
        else
          let ask := Effect.confirm subset.length (k.negatives subset)
          if !userConfirms then (s, [ask])
          else
            (showImportLoader s,
              [ask, .bulkRequest
                { reviews := subset
                  shopify_product_id := product.id
                  session_id := s.sessionId
                  platform := "aliexpress"
                  min_quality_score := k.minQualityScore }])

/-- A bulk import method from the parsed response on: every branch ends in
`hideImportLoader`. -/
def bulkImportDone (k : BulkKind) (o : Outcome BulkResult) (s : Client) :
    Client × List Effect :=
  match o with
  | .exception => (hideImportLoader s, [])
  | .response result =>
    if result.success then
      (hideImportLoader s, if k = .all then [.analytics s.sessionId] else [])
    else (hideImportLoader s, [])

/-- The method `importAllReviews`. -/
def importAllReviews : Bool → Client → Client × List Effect := bulkImport .all

/-- The method `importWithPhotos`. -/
def importWithPhotos : Bool → Client → Client × List Effect := bulkImport .withPhotos

/-- The method `importWithoutPhotos`. -/
def importWithoutPhotos : Bool → Client → Client × List Effect := bulkImport .withoutPhotos

/-- The method `importAIRecommended`. -/
def importAIRecommended : Bool → Client → Client × List Effect := bulkImport .aiRecommended

/-- The method `import45Star`. -/
def import45Star : Bool → Client → Client × List Effect := bulkImport .star45

/-- The method `import3Star`. -/
def import3Star : Bool → Client → Client × List Effect := bulkImport .star3

/-- The method `selectProduct`. -/
def selectProduct (product : Product) (s : Client) : Client :=
  { s with selectedProduct := some product }

/-- The method `clearProduct`. -/
def clearProduct (s : Client) : Client := { s with selectedProduct := none }

/-- The predicate of each bulk import, in words: every review; images
non-empty; images empty; recommended flag set; normalised star 4 or 5;
normalised star 3. -/
def BulkKind.predicate : BulkKind → Review → Bool
  | .all, _ => true
  | .withPhotos, r => !r.images.isEmpty
  | .withoutPhotos, r => r.images.isEmpty
  | .aiRecommended, r => r.ai_recommended
  | .star45, r => decide (normalizedStar r.rating = 4 ∨ normalizedStar r.rating = 5)
  | .star3, r => decide (normalizedStar r.rating = 3)

/-! ## Sessions -/

/-- What can happen to a session: a call by the user, or the completion of a
request. -/
inductive Event
  | loadReviews (page : Nat)
  | loadReviewsDone (o : Outcome PageResult)
  | setFilter (filter : String)
  | setCountry (country : String)
  | nextReview
  | prevReview
  | importReview
  | importReviewDone (o : Outcome SingleResult)
  | skipReview
  | skipReviewDone (o : Outcome SkipResult)
  | selectProduct (product : Product)
  | clearProduct
  | bulkImport (k : BulkKind) (userConfirms : Bool)
  | bulkImportDone (k : BulkKind) (o : Outcome BulkResult)
deriving DecidableEq, Repr

/-- A session with its bookkeeping: the client, and the number of bulk import
requests sent and not yet completed. -/
structure World where
  client : Client
  bulkInFlight : Nat
deriving DecidableEq, Repr

/-- The session right after the constructor. -/
def World.initial (sessionId : String) : World :=
  { client := Client.initial sessionId, bulkInFlight := 0 }

/-- Whether an effect is a bulk import request. -/
def Effect.isBulkRequest : Effect → Bool
  | .bulkRequest _ => true
  | _ => false

/-- The number of bulk requests among the effects of an operation. -/
def bulkRequests (effects : List Effect) : Nat :=
  effects.countP Effect.isBulkRequest

/-- One event of a session.  The completion of a bulk request happens only
while one is in flight. -/
def World.step (w : World) : Event → World
  | .loadReviews page => { w with client := (loadReviews page w.client).1 }
  | .loadReviewsDone o => { w with client := (loadReviewsDone o w.client).1 }
  | .setFilter filter => { w with client := setFilter w.client filter }
  | .setCountry country => { w with client := setCountry w.client country }
  | .nextReview => { w with client := (nextReview w.client).1 }
  | .prevReview => { w with client := prevReview w.client }
  | .importReview => { w with client := (importReview w.client).1 }
  | .importReviewDone o => { w with client := (importReviewDone o w.client).1 }
  | .skipReview => { w with client := (skipReview w.client).1 }
  | .skipReviewDone o => { w with client := (skipReviewDone o w.client).1 }
  | .selectProduct product => { w with client := selectProduct product w.client }
  | .clearProduct => { w with client := clearProduct w.client }
  | .bulkImport k userConfirms =>
    { client := (bulkImport k userConfirms w.client).1
      bulkInFlight := w.bulkInFlight + bulkRequests (bulkImport k userConfirms w.client).2 }
  | .bulkImportDone k o =>
    if 0 < w.bulkInFlight then
      { client := (bulkImportDone k o w.client).1, bulkInFlight := w.bulkInFlight - 1 }
    else w

/-- A session after a sequence of events, the first event first. -/
def World.run (w : World) (events : List Event) : World :=
  events.foldl World.step w

/-- A product to import into. -/
def sampleProduct : Product := { id := "8001", title := "Ceramic mug" }

/-- A session with a selected target whose reviews all lack images. -/
def samplePhotolessClient : Client :=
  { Client.initial "h5t1n9v3b" with
    selectedProduct := some sampleProduct
    allReviews := [sampleA, sampleStar4]
    reviews := [sampleA, sampleStar4] }

/-- A session with a selected target, the two sample reviews loaded and shown,
the cursor on the first. -/
def sampleLoadedClient : Client :=
  { Client.initial "k3x9q2m1z" with
    selectedProduct := some sampleProduct
    allReviews := [sampleB, sampleA]
    reviews := [sampleA, sampleB] }

/-- A page response with the two sample reviews and a further page. -/
def samplePage : PageResult :=
  { session_id := "srv-77", success := true, reviews := [sampleB, sampleA],
    pagination := { has_next := true, page := 1 } }

/-- The bookkeeping invariant: a bulk request is in flight exactly while the
busy flag is raised, and then there is one. -/
def BusyInvariant (w : World) : Prop :=
  w.bulkInFlight = if w.client.isImporting then 1 else 0

/-- The cursor is a valid index into the view: 0, or below the view length. -/
def IndexValid (c : Client) : Prop :=
  c.currentIndex = 0 ∨ c.currentIndex < c.reviews.length

/-- A session: two pages loaded, moves of the cursor, a filter change. -/
def sampleEvents : List Event :=
  [Event.loadReviewsDone (Outcome.response samplePage), Event.nextReview, Event.nextReview,
   Event.loadReviewsDone (Outcome.response samplePage), Event.selectProduct sampleProduct,
   Event.importReviewDone (Outcome.response { success := true, duplicate := false }),
   Event.setFilter "photos", Event.skipReviewDone (Outcome.response { success := true }),
   Event.prevReview]

/-! ## Page detection -/

/-- The method `String.prototype.includes`: the pattern occurs in the text. -/
def jsIncludes (s pattern : String) : Bool := decide (pattern.data <:+: s.data)

/-- The class of decimal digits of a regular expression, 0 to 9. -/
def jsIsDigit (c : Char) : Bool := decide (48 ≤ c.toNat ∧ c.toNat ≤ 57)

/-- A match of the regular expression of `isModalPage`, 13 or more digits and
then `.html`, starting at the head of the text.  The digits are taken
greedily; giving some back cannot help, as a digit then stands where the dot
is wanted. -/
def matchesLongIdAt (cs : List Char) : Bool :=
  decide (13 ≤ (cs.takeWhile jsIsDigit).length) &&
    decide (".html".data <+: cs.dropWhile jsIsDigit)

/-- The method `test` of that regular expression: a match starting somewhere. -/
def testLongId (url : String) : Bool := url.data.tails.any matchesLongIdAt

/-- The method `isModalPage`, given `window.location.href`. -/
def isModalPage (url : String) : Bool :=
  -- a direct product page (/item/xxxxx.html) is not modal mode
  if jsIncludes url "/item/" && testLongId url then false
  else
    jsIncludes url "_immersiveMode=true" ||
    jsIncludes url "disableNav=YES" ||
    jsIncludes url "/ssr/"

/-- The URL contains a run of at least 13 digits immediately followed by
`.html`, in words. -/
def HasLongIdRun (url : String) : Prop :=
  ∃ before digits after : List Char,
    url.data = before ++ digits ++ ".html".data ++ after ∧
    13 ≤ digits.length ∧ ∀ c ∈ digits, jsIsDigit c = true

/-- A product page opened with modal flags in its query. -/
def sampleProductUrl : String :=
  "https://www.aliexpress.com/item/1005006123456789.html?_immersiveMode=true"

/-- A listing page in modal mode. -/
def sampleModalUrl : String := "https://www.aliexpress.com/ssr/300000512/list?disableNav=YES"

/-! ## Inserting the control into the modal

Time is counted in milliseconds.  Timers are kept in the order in which they
fire: by due time, and in creation order among equal due times. -/

/-- What the host page shows over time: whether one of the review tab
selectors of `tryAddButton` matches, and whether one of its three fallback
containers does. -/
structure HostPage where
  reviewTab : Nat → Bool
  modalBody : Nat → Bool

/-- A pending `setTimeout(() => tryAddButton(attempt), ...)`. -/
structure Timer where
  due : Nat
  attempt : Nat
deriving DecidableEq, Repr

/-- The state of the insertion: pending timers, the number of invocations of
`tryAddButton` so far, and the inserted controls (elements of class
`sakura-reviews-btn`) inside the review tab and inside the fallback container. -/
structure Injection where
  pending : List Timer
  attempts : Nat
  inReviewTab : Nat
  inModalBody : Nat
deriving DecidableEq, Repr

/-- The function `setTimeout`: the timer fires after those due no later. -/
def setTimeout (timer : Timer) : List Timer → List Timer
  | [] => [timer]
  | t :: ts => if t.due ≤ timer.due then t :: setTimeout timer ts else timer :: t :: ts

/-- The closure `tryAddButton(attempt)` of `addSakuraButton`, run at time `now`. -/
def tryAddButton (page : HostPage) (now attempt : Nat) (st : Injection) : Injection :=
  let st := { st with attempts := st.attempts + 1 }
  if page.reviewTab now then
    -- remove any existing button (one, if there is one), then insert the new one
    { st with inReviewTab := st.inReviewTab - 1 + 1 }
  else if attempt < 10 then
    { st with pending := setTimeout { due := now + 300, attempt := attempt + 1 } st.pending }
  else if page.modalBody now then
    -- fallback: insert into the modal body
    { st with inModalBody := st.inModalBody + 1 }
  else st

/-- The method `addSakuraButton`, called at time `now`: an immediate attempt
and two delayed ones. -/
def addSakuraButton (page : HostPage) (now : Nat) (st : Injection) : Injection :=
  let st := tryAddButton page now 1 st
  let st := { st with pending := setTimeout { due := now + 600, attempt := 4 } st.pending }
  { st with pending := setTimeout { due := now + 1500, attempt := 7 } st.pending }

/-- The next timer fires. -/
def fireNext (page : HostPage) (st : Injection) : Injection :=
  match st.pending with
  | [] => st
  | t :: ts => tryAddButton page t.due t.attempt { st with pending := ts }

/-- The event loop lets up to `n` timers fire. -/
def runTimers (page : HostPage) : Nat → Injection → Injection
  | 0, st => st
  | n + 1, st => runTimers page n (fireNext page st)

/-- A page with nothing inserted and no timer pending. -/
def Injection.idle : Injection :=
  { pending := [], attempts := 0, inReviewTab := 0, inModalBody := 0 }

/-- The work left in the pending timers: each may still lead to attempts up to
number 10. -/
def remainingAttempts (timers : List Timer) : Nat :=
  (timers.map (fun t => 11 - t.attempt)).sum

/-- The timers all carry an attempt number of at most 10. -/
def TimersBounded (st : Injection) : Prop := ∀ t ∈ st.pending, t.attempt ≤ 10

/-- A page whose review tab never appears and whose modal body is there. -/
def pageWithoutReviewTab : HostPage :=
  { reviewTab := fun _ => false, modalBody := fun _ => true }

/-- A page whose review tab is there from the start. -/
def pageWithReviewTab : HostPage :=
  { reviewTab := fun _ => true, modalBody := fun _ => true }

/-! ## The click listener of modal mode -/

/-- An event handler function, by identity: one of the host page, or the
closure created by the n-th call of `setupProductClickListener`. -/
inductive Handler
  | host (n : Nat)
  | client (n : Nat)
deriving DecidableEq, Repr

/-- An event listener of `document.body`, identified by event type, handler
and capture flag. -/
structure Listener where
  eventType : String
  handler : Handler
  capture : Bool
deriving DecidableEq, Repr

/-- The listeners of `document.body` in registration order, the field
`modalClickHandler` of the client and the number of closures it has created. -/
structure ModalState where
  listeners : List Listener
  modalClickHandler : Option Nat
  created : Nat
deriving DecidableEq, Repr

/-- The method `addEventListener`: a listener already registered is not added again. -/
def addEventListener (l : Listener) (listeners : List Listener) : List Listener :=
  if l ∈ listeners then listeners else listeners ++ [l]

/-- The method `removeEventListener`: the listener with this type, handler and
capture flag is removed, if registered. -/
def removeEventListener (l : Listener) (listeners : List Listener) : List Listener :=
  listeners.erase l

/-- The method `setupProductClickListener`. -/
def setupProductClickListener (m : ModalState) : ModalState :=
  -- Remove existing listener if it exists
  let listeners :=
    match m.modalClickHandler with
    | some h =>
      removeEventListener { eventType := "click", handler := .client h, capture := true }
        m.listeners
    | none => m.listeners
  -- a new closure, attached with capture phase
  { listeners :=
      addEventListener { eventType := "click", handler := .client m.created, capture := true }
        listeners
    modalClickHandler := some m.created
    created := m.created + 1 }

/-- The method `close`, as far as the click listener goes: the call
`removeEventListener('click', this.modalClickHandler)` gives no capture flag,
which means false. -/
def close (m : ModalState) : ModalState :=
  match m.modalClickHandler with
  | some h =>
    { m with
      listeners :=
        removeEventListener { eventType := "click", handler := .client h, capture := false }
          m.listeners
      modalClickHandler := none }
  | none => m

/-- The test of the handler on the product id, start, `1005`, nine or more
digits, end. -/
def isValidProductId (productId : String) : Bool :=
  decide ("1005".data <+: productId.data) &&
    decide (9 ≤ (productId.data.drop 4).length) &&
    (productId.data.drop 4).all jsIsDigit

/-- Whether a listener is a click listener of the client. -/
def Listener.isClientClick (l : Listener) : Bool :=
  l.eventType == "click" &&
    match l.handler with
    | .client _ => true
    | .host _ => false

/-- The number of calls of `addSakuraButton` caused by one click on a product
element with this id: one per attached click listener of the client when the
id is valid, none otherwise. -/
def clickCalls (m : ModalState) (productId : String) : Nat :=
  if isValidProductId productId then m.listeners.countP Listener.isClientClick else 0

/-- The page body with the listeners of the host page only, before the client
has attached anything. -/
def ModalState.fresh (hostListeners : List Listener) : ModalState :=
  { listeners := hostListeners, modalClickHandler := none, created := 0 }

/-- A click listener of the host page. -/
def sampleHostListener : Listener :=
  { eventType := "click", handler := .host 0, capture := false }

/-! ## Client-side extraction -/

/-- An entry of `r.images` in the structured source: a string, an object with
the optional members `imgUrl`, `url`, `src` (absent is empty), or anything else. -/
inductive RawImage
  | text (url : String)
  | object (imgUrl url src : String)
  | other
deriving DecidableEq, Repr

/-- The variable `imgUrl` of `scrapeAliExpress`; the empty string stands for a
falsy value. -/
def RawImage.imgUrl : RawImage → String
  | .text url => url
  | .object imgUrl url src => if imgUrl ≠ "" then imgUrl else if url ≠ "" then url else src
  | .other => ""

/-- The test of `scrapeAliExpress` on an image URL. -/
def keepsFeedbackImage (imgUrl : String) : Bool :=
  decide (imgUrl ≠ "") &&
  jsIncludes imgUrl "aliexpress" &&
  (jsIncludes imgUrl "/kf/" || jsIncludes imgUrl "ae-pic") &&
  !jsIncludes imgUrl "avatar" &&
  !jsIncludes imgUrl "icon" &&
  !jsIncludes imgUrl "placeholder"

/-- The list `reviewImages` built by `scrapeAliExpress` for one record of
`feedbackList`. -/
def scrapeAliExpressImages (images : List RawImage) : List String :=
  (images.map RawImage.imgUrl).filter keepsFeedbackImage

/-- An `img` element below a review node: whether it lies inside an
`itemPhoto` node, its `src` and its `data-src` attribute. -/
structure ImgElement where
  insideItemPhoto : Bool
  src : String
  dataSrc : String
deriving DecidableEq, Repr

/-- The variable `src` of `scrapeAliExpressDom`: `img.src`, else the
`data-src` attribute. -/
def ImgElement.source (img : ImgElement) : String :=
  if img.src ≠ "" then img.src else img.dataSrc

/-- The test of `scrapeAliExpressDom` on an image source. -/
def keepsDomImage (src : String) : Bool :=
  decide (src ≠ "") &&
  (jsIncludes src "/kf/" || jsIncludes src "ae-pic" || jsIncludes src "ae01.alicdn") &&
  !jsIncludes src "avatar" &&
  !jsIncludes src "icon" &&
  !jsIncludes src "logo" &&
  decide (jsLength src > 50)

/-- The list `images` built by `scrapeAliExpressDom` for one review node. -/
def scrapeAliExpressDomImages (imgs : List ImgElement) : List String :=
  ((imgs.filter (fun img => !img.insideItemPhoto)).map ImgElement.source).filter keepsDomImage

/-- The list `images` built by `scrapeAmazon` for one review node, from the
`src` of its `img[data-hook="review-image"]` elements. -/
def scrapeAmazonImages (srcs : List String) : List String := srcs

/-- The loop of `scrapeAliExpressDom` over its selectors, given the nodes each
selector matches; the second argument is `reviewElements` so far. -/
def selectorLoop {α : Type} : List (List α) → List α → List α
  | [], reviewElements => reviewElements
  | found :: rest, _ =>
    if 0 < found.length ∧ found.length < 100 then found else selectorLoop rest found

/-- The nodes `scrapeAliExpressDom` goes on to read: those left by the loop,
or those of the body search when the loop left none. -/
def reviewElementsOf {α : Type} (candidates : List (List α)) (bodySearch : List α) : List α :=
  let reviewElements := selectorLoop candidates []
  if reviewElements.length = 0 then bodySearch else reviewElements

/-- An image source of a review node that is a placeholder. -/
def samplePlaceholderSrc : String :=
  "https://ae01.alicdn.com/kf/S0000000000000000000000000placeholder.jpg_220x220.jpg"

/-- An image source of an Amazon review node. -/
def sampleAmazonSrc : String := "https://m.media-amazon.com/images/I/avatar-71x.jpg"

/-- An image URL of the structured source. -/
def sampleFeedbackUrl : String := "https://ae01.alicdn.com/kf/aliexpress-S12ab.jpg"

/-! ## Stars shown -/

/-- The method `renderStars`: the numbers of filled and of empty stars it
emits.  `String.prototype.repeat` throws on a negative count. -/
def renderStars (rating : Int) : Option (Nat × Nat) :=
  let starCount := Int.ceil ((rating : ℚ) / 20)
  let filledStars := min starCount 5
  let emptyStars := 5 - filledStars
  if filledStars < 0 ∨ emptyStars < 0 then none
  else some (filledStars.toNat, emptyStars.toNat)

/-! ## Arrays by reference

`applyFilter` once more, with arrays as mutable objects named by references,
to follow which array the in-place sort touches. -/

/-- The arrays allocated so far; a reference is a position in the list. -/
structure Heap where
  arrays : List (List Review)
deriving DecidableEq, Repr

/-- The content of an array. -/
def Heap.read (h : Heap) (ref : Nat) : List Review := h.arrays.getD ref []

/-- A new array with the given content, and its reference. -/
def Heap.alloc (h : Heap) (content : List Review) : Heap × Nat :=
  ({ arrays := h.arrays ++ [content] }, h.arrays.length)

/-- The content of an array is replaced, the array stays the same object. -/
def Heap.write (h : Heap) (ref : Nat) (content : List Review) : Heap :=
  { arrays := h.arrays.set ref content }

/-- The method `Array.prototype.filter`: the result is a new array. -/
def Heap.filter (h : Heap) (ref : Nat) (p : Review → Bool) : Heap × Nat :=
  h.alloc ((h.read ref).filter p)

/-- The method `smartSort(reviews)`: `reviews.sort(...)` sorts the array in
place and returns it. -/
def smartSortInPlace (h : Heap) (reviews : Nat) : Heap × Nat :=
  (h.write reviews (smartSort (h.read reviews)), reviews)

/-- Step 1 of `applyFilter` on references: the category filter, on the array
`filtered`. -/
def categoryFilterInPlace (h : Heap) (filtered : Nat) (currentFilter : String) : Heap × Nat :=
  if currentFilter = "photos" then h.filter filtered hasPhotos
  else if currentFilter = "ai_recommended" then h.filter filtered (fun r => r.ai_recommended)
  else if currentFilter = "4-5stars" then h.filter filtered (fun r => decide (r.rating ≥ 70))
  else if currentFilter = "3stars" then
    h.filter filtered (fun r => decide (r.rating ≥ 50) && decide (r.rating < 70))
  else if currentFilter = "5stars" then h.filter filtered (fun r => decide (r.rating ≥ 90))
  else (h, filtered)

/-- Step 2 of `applyFilter` on references: the country filter. -/
def countryFilterInPlace (h : Heap) (filtered : Nat) (selectedCountry : String) : Heap × Nat :=
  if selectedCountry ≠ "all" then h.filter filtered (fun r => r.country == selectedCountry)
  else (h, filtered)

/-- Steps 1 to 3 of `applyFilter` on references: from the array
`this.allReviews` to the array assigned to `this.reviews`. -/
def applyFilterInPlace (h : Heap) (allReviews : Nat) (currentFilter selectedCountry : String) :
    Heap × Nat :=
  -- let filtered = [...this.allReviews]
  let copy := h.alloc (h.read allReviews)
  let step1 := categoryFilterInPlace copy.1 copy.2 currentFilter
  let step2 := countryFilterInPlace step1.1 step1.2 selectedCountry
  smartSortInPlace step2.1 step2.2

/-- A fresh array holds the given content and the arrays before it are as
they were. -/
def FreshArray (h h2 : Heap) (ref : Nat) (content : List Review) : Prop :=
  (∀ r, r < h.arrays.length → h2.read r = h.read r) ∧
  h.arrays.length ≤ ref ∧ ref < h2.arrays.length ∧ h2.read ref = content

/-- A heap with the array of the two sample reviews at reference 0. -/
def sampleHeap : Heap := { arrays := [[sampleB, sampleA]] }

/-! ## Properties of the comparator -/

theorem orZero_eq (x : Int) : orZero x = x := by
  unfold orZero; split_ifs with h <;> simp [h]

theorem descLex_irrefl : ∀ xs : List Int, ¬ descLex xs xs
  | [] => by simp [descLex]
  | x :: xs => by
    simp only [descLex, ne_eq, not_true_eq_false, if_false]; exact descLex_irrefl xs

theorem descLex_asymm : ∀ xs ys : List Int, descLex xs ys → ¬ descLex ys xs
  | [], _ => by simp [descLex]
  | _ :: _, [] => by simp [descLex]
  | x :: xs, y :: ys => by
    have ih := descLex_asymm xs ys
    simp only [descLex]
    split_ifs <;> first | omega | (intros; omega) | exact ih

theorem descLex_negTrans : ∀ xs ys zs : List Int, xs.length = ys.length →
    ys.length = zs.length → ¬ descLex xs ys → ¬ descLex ys zs → ¬ descLex xs zs
  | [], _, _ => by intros; simp [descLex]
  | _ :: _, [], _ => by intro h; simp at h
  | _ :: _, _ :: _, [] => by intro _ h; simp at h
  | x :: xs, y :: ys, z :: zs => by
    intro h1 h2
    have ih := descLex_negTrans xs ys zs (by simpa using h1) (by simpa using h2)
    simp only [descLex]
    split_ifs <;> first | omega | (intros; omega) | exact ih

theorem sortKeys_length (a : Review) : (sortKeys a).length = 7 := rfl

theorem ranksBefore_irrefl (a : Review) : ¬ ranksBefore a a := descLex_irrefl _

theorem ranksBefore_asymm (a b : Review) (h : ranksBefore a b) : ¬ ranksBefore b a :=
  descLex_asymm _ _ h

theorem ranksBefore_negTrans (a b c : Review) (hab : ¬ ranksBefore a b)
    (hbc : ¬ ranksBefore b c) : ¬ ranksBefore a c :=
  descLex_negTrans _ _ _ (by simp [sortKeys_length]) (by simp [sortKeys_length]) hab hbc

theorem ranksBefore_trans (a b c : Review) (hab : ranksBefore a b) (hbc : ranksBefore b c) :
    ranksBefore a c := by
  by_contra hac
  exact ranksBefore_negTrans a c b hac (ranksBefore_asymm b c hbc) hab

/-- One level of the comparator that answers `-1` or `1`, read for a negative result. -/
theorem neg_step2 {c1 c2 d B S : Prop} [Decidable c1] [Decidable c2] [Decidable d] {R : Int}
    (hd : d ↔ (c1 ∨ c2)) (h1 : c1 → B) (h2 : c2 → ¬ B) (hRS : ¬ d → (R < 0 ↔ S)) :
    (if c1 then (-1 : Int) else if c2 then 1 else R) < 0 ↔ (if d then B else S) := by
  by_cases hc1 : c1
  · simp [hc1, hd.mpr (Or.inl hc1), h1 hc1]
  · by_cases hc2 : c2
    · simp [hc1, hc2, hd.mpr (Or.inr hc2), h2 hc2]
    · have hnd : ¬ d := fun h => (hd.mp h).elim hc1 hc2
      simp [hc1, hc2, hnd, hRS hnd]

/-- One level of the comparator that answers a difference, read for a negative result. -/
theorem neg_step1 {d e B S : Prop} [Decidable d] [Decidable e] {v R : Int}
    (he : e ↔ d) (hv : d → (v < 0 ↔ B)) (hRS : ¬ d → (R < 0 ↔ S)) :
    (if d then v else R) < 0 ↔ (if e then B else S) := by
  by_cases hd : d
  · simp [hd, he.mpr hd, hv hd]
  · simp [hd, mt he.mp hd, hRS hd]

/-- One level of the comparator that answers `-1` or `1`, read for a positive result. -/
theorem pos_step2 {c1 c2 d B S : Prop} [Decidable c1] [Decidable c2] [Decidable d] {R : Int}
    (hd : d ↔ (c1 ∨ c2)) (h1 : c1 → ¬ B) (h2 : c2 → B) (hRS : ¬ d → (0 < R ↔ S)) :
    0 < (if c1 then (-1 : Int) else if c2 then 1 else R) ↔ (if d then B else S) := by
  by_cases hc1 : c1
  · simp [hc1, hd.mpr (Or.inl hc1), h1 hc1]
  · by_cases hc2 : c2
    · simp [hc1, hc2, hd.mpr (Or.inr hc2), h2 hc2]
    · have hnd : ¬ d := fun h => (hd.mp h).elim hc1 hc2
      simp [hc1, hc2, hnd, hRS hnd]

/-- One level of the comparator that answers a difference, read for a positive result. -/
theorem pos_step1 {d e B S : Prop} [Decidable d] [Decidable e] {v R : Int}
    (he : e ↔ d) (hv : d → (0 < v ↔ B)) (hRS : ¬ d → (0 < R ↔ S)) :
    0 < (if d then v else R) ↔ (if e then B else S) := by
  by_cases hd : d
  · simp [hd, he.mpr hd, hv hd]
  · simp [hd, mt he.mp hd, hRS hd]

/-- The comparator is negative exactly when the first review ranks before the second. -/
theorem smartSortCompare_neg_iff (a b : Review) :
    smartSortCompare a b < 0 ↔ ranksBefore a b := by
  unfold smartSortCompare ranksBefore sortKeys photoCount
  simp only [orZero_eq, descLex]
  refine neg_step2 ?_ ?_ ?_ (fun _ => ?_)
  · cases a.ai_recommended <;> cases b.ai_recommended <;> simp
  · cases a.ai_recommended <;> cases b.ai_recommended <;> simp
  · cases a.ai_recommended <;> cases b.ai_recommended <;> simp
  refine neg_step2 ?_ ?_ ?_ (fun _ => ?_)
  · by_cases ha : 10 ≤ jsLength (trimmedText a) <;>
      by_cases hb : 10 ≤ jsLength (trimmedText b) <;> simp [ha, hb]
  · by_cases ha : 10 ≤ jsLength (trimmedText a) <;>
      by_cases hb : 10 ≤ jsLength (trimmedText b) <;> simp [ha, hb]
  · by_cases ha : 10 ≤ jsLength (trimmedText a) <;>
      by_cases hb : 10 ≤ jsLength (trimmedText b) <;> simp [ha, hb]
  refine neg_step2 ?_ ?_ ?_ (fun _ => ?_)
  · split_ifs <;> omega
  · intro h; split_ifs <;> omega
  · intro h; split_ifs <;> omega
  refine neg_step1 (by omega) (fun _ => by omega) (fun _ => ?_)
  refine neg_step1 Iff.rfl (fun _ => by omega) (fun _ => ?_)
  refine neg_step1 (by omega) (fun _ => by omega) (fun _ => ?_)
  split_ifs with h
  · omega
  · have h := not_not.mp h
    simp [h]

/-- The comparator is positive exactly when the second review ranks before the first. -/
theorem smartSortCompare_pos_iff (a b : Review) :
    0 < smartSortCompare a b ↔ ranksBefore b a := by
  unfold smartSortCompare ranksBefore sortKeys photoCount
  simp only [orZero_eq, descLex]
  refine pos_step2 ?_ ?_ ?_ (fun _ => ?_)
  · cases a.ai_recommended <;> cases b.ai_recommended <;> simp
  · cases a.ai_recommended <;> cases b.ai_recommended <;> simp
  · cases a.ai_recommended <;> cases b.ai_recommended <;> simp
  refine pos_step2 ?_ ?_ ?_ (fun _ => ?_)
  · by_cases ha : 10 ≤ jsLength (trimmedText a) <;>
      by_cases hb : 10 ≤ jsLength (trimmedText b) <;> simp [ha, hb]
  · by_cases ha : 10 ≤ jsLength (trimmedText a) <;>
      by_cases hb : 10 ≤ jsLength (trimmedText b) <;> simp [ha, hb]
  · by_cases ha : 10 ≤ jsLength (trimmedText a) <;>
      by_cases hb : 10 ≤ jsLength (trimmedText b) <;> simp [ha, hb]
  refine pos_step2 ?_ ?_ ?_ (fun _ => ?_)
  · split_ifs <;> omega
  · intro h; split_ifs <;> omega
  · intro h; split_ifs <;> omega
  refine pos_step1 (by omega) (fun _ => by omega) (fun _ => ?_)
  refine pos_step1 (by omega) (fun _ => by omega) (fun _ => ?_)
  refine pos_step1 (by omega) (fun _ => by omega) (fun _ => ?_)
  split_ifs with h
  · omega
  · have h := not_not.mp h
    simp [h]

theorem smartSortCompare_le_iff (a b : Review) :
    smartSortCompare a b ≤ 0 ↔ ¬ ranksBefore b a := by
  rw [← smartSortCompare_pos_iff]; omega

/-! ## Properties of the sort -/

theorem smartSortCompare_isTotal : IsTotal Review (fun a b => smartSortCompare a b ≤ 0) :=
  ⟨fun a b => by
    simp only [smartSortCompare_le_iff]
    by_cases h : ranksBefore b a
    · exact Or.inr (ranksBefore_asymm b a h)
    · exact Or.inl h⟩

theorem smartSortCompare_isTrans : IsTrans Review (fun a b => smartSortCompare a b ≤ 0) :=
  ⟨fun a b c hab hbc => by
    simp only [smartSortCompare_le_iff] at *
    exact ranksBefore_negTrans c b a hbc hab⟩

theorem smartSort_perm (l : List Review) : (smartSort l).Perm l :=
  List.perm_insertionSort _ l

theorem smartSort_sorted (l : List Review) :
    (smartSort l).Pairwise (fun a b => smartSortCompare a b ≤ 0) := by
  haveI := smartSortCompare_isTotal
  haveI := smartSortCompare_isTrans
  exact List.sorted_insertionSort _ l

theorem smartSort_of_sorted (l : List Review)
    (h : l.Pairwise (fun a b => smartSortCompare a b ≤ 0)) : smartSort l = l :=
  List.Sorted.insertionSort_eq h

theorem pairwise_getElem? {α : Type} {R : α → α → Prop} {l : List α} (h : l.Pairwise R)
    {i j : Nat} {a b : α} (hij : i < j) (ha : l[i]? = some a) (hb : l[j]? = some b) :
    R a b := by
  obtain ⟨hi, rfl⟩ := List.getElem?_eq_some.mp ha
  obtain ⟨hj, rfl⟩ := List.getElem?_eq_some.mp hb
  exact List.pairwise_iff_getElem.mp h i j hi hj hij

theorem categoryFilter_all (l : List Review) : categoryFilter "all" l = l := by
  simp [categoryFilter]

theorem countryFilter_all (l : List Review) : countryFilter "all" l = l := by
  simp [countryFilter]

theorem applyFilter_reviews (s : Client) :
    (applyFilter s).reviews =
      smartSort (countryFilter s.selectedCountry (categoryFilter s.currentFilter s.allReviews)) :=
  rfl

theorem applyFilter_allReviews (s : Client) : (applyFilter s).allReviews = s.allReviews := rfl

theorem applyFilter_currentFilter (s : Client) :
    (applyFilter s).currentFilter = s.currentFilter := rfl

theorem applyFilter_selectedCountry (s : Client) :
    (applyFilter s).selectedCountry = s.selectedCountry := rfl

/-! ## Claims -/

/-- C1: with filter and country both set to all, the view produced by
applyFilter is a permutation of allReviews: same elements, same
multiplicities, same length. -/
theorem applyFilter_all_all_perm (s : Client) (hf : s.currentFilter = "all")
    (hc : s.selectedCountry = "all") :
    (applyFilter s).reviews.Perm s.allReviews ∧
    (applyFilter s).reviews.length = s.allReviews.length ∧
    (∀ r, (applyFilter s).reviews.count r = s.allReviews.count r) ∧
    (∀ r, r ∈ (applyFilter s).reviews ↔ r ∈ s.allReviews) := by
  have hp : (applyFilter s).reviews.Perm s.allReviews := by
    rw [applyFilter_reviews, hf, hc, categoryFilter_all, countryFilter_all]
    exact smartSort_perm _
  exact ⟨hp, hp.length_eq, fun r => hp.count_eq r, fun r => hp.mem_iff⟩

/-- Witness for C1 on the sample session: the view is the two sample reviews, reordered. -/
theorem applyFilter_all_all_perm_witness :
    sampleClient.currentFilter = "all" ∧ sampleClient.selectedCountry = "all" ∧
    (applyFilter sampleClient).reviews = [sampleA, sampleB] ∧
    (applyFilter sampleClient).reviews.Perm sampleClient.allReviews ∧
    (applyFilter sampleClient).reviews.length = 2 :=
  ⟨rfl, rfl, by decide, (applyFilter_all_all_perm sampleClient rfl rfl).1,
    (applyFilter_all_all_perm sampleClient rfl rfl).2.1⟩

/-- C2: ranking is idempotent, smartSort (smartSort l) = smartSort l as a
sequence, and running applyFilter a second time (same allReviews, filter and
country) reproduces the same view, indeed the same state. -/
theorem smartSort_applyFilter_idempotent :
    (∀ l : List Review, smartSort (smartSort l) = smartSort l) ∧
    (∀ s : Client, (applyFilter (applyFilter s)).reviews = (applyFilter s).reviews) ∧
    (∀ s : Client, applyFilter (applyFilter s) = applyFilter s) :=
  ⟨fun l => smartSort_of_sorted _ (smartSort_sorted l), fun _ => rfl, fun _ => rfl⟩

/-- C3: the comparator of smartSort is a strict weak ordering: ranking
strictly before (a negative result) is irreflexive and transitive, the results
for (a, b) and (b, a) have opposite signs or are both zero, and
incomparability (neither ranks before the other) is transitive. -/
theorem smartSortCompare_strict_weak_order :
    (∀ a, ¬ smartSortCompare a a < 0) ∧
    (∀ a b c, smartSortCompare a b < 0 → smartSortCompare b c < 0 →
      smartSortCompare a c < 0) ∧
    (∀ a b, (smartSortCompare a b < 0 ↔ 0 < smartSortCompare b a) ∧
      (smartSortCompare a b = 0 ↔ smartSortCompare b a = 0) ∧
      (0 < smartSortCompare a b ↔ smartSortCompare b a < 0)) ∧
    (∀ a b c, (¬ smartSortCompare a b < 0 ∧ ¬ smartSortCompare b a < 0) →
      (¬ smartSortCompare b c < 0 ∧ ¬ smartSortCompare c b < 0) →
      (¬ smartSortCompare a c < 0 ∧ ¬ smartSortCompare c a < 0)) := by
  refine ⟨fun a => ?_, fun a b c hab hbc => ?_, fun a b => ?_, fun a b c hab hbc => ?_⟩
  · rw [smartSortCompare_neg_iff]; exact ranksBefore_irrefl a
  · rw [smartSortCompare_neg_iff] at *; exact ranksBefore_trans a b c hab hbc
  · have h1 := smartSortCompare_neg_iff a b
    have h2 := smartSortCompare_pos_iff a b
    have h3 := smartSortCompare_neg_iff b a
    have h4 := smartSortCompare_pos_iff b a
    have h5 : smartSortCompare a b < 0 ↔ 0 < smartSortCompare b a := h1.trans h4.symm
    have h6 : 0 < smartSortCompare a b ↔ smartSortCompare b a < 0 := h2.trans h3.symm
    exact ⟨h5, by omega, h6⟩
  · simp only [smartSortCompare_neg_iff] at *
    exact ⟨ranksBefore_negTrans a b c hab.1 hbc.1, ranksBefore_negTrans c b a hbc.2 hab.2⟩

/-- Witness for C3: the two sample reviews compare with opposite signs. -/
theorem smartSortCompare_strict_weak_order_witness :
    smartSortCompare sampleA sampleB < 0 ∧ 0 < smartSortCompare sampleB sampleA :=
  ⟨by decide, ((smartSortCompare_strict_weak_order.2.2.1 sampleA sampleB).1).mp (by decide)⟩

/-- C4: the output of smartSort is ordered by the six-key priority: for
positions i < j the comparator never ranks output[j] strictly before
output[i], and the comparator ranks a before b exactly when a is better at the
first differing key among recommended, meaningful text, has images, image
count, raw rating, trimmed text length, quality score. -/
theorem smartSort_ordered_by_priority :
    (∀ (l : List Review) (i j : Nat) (a b : Review), i < j →
      (smartSort l)[i]? = some a → (smartSort l)[j]? = some b →
      ¬ smartSortCompare b a < 0 ∧ ¬ ranksBefore b a) ∧
    (∀ a b, smartSortCompare a b < 0 ↔ ranksBefore a b) := by
  refine ⟨fun l i j a b hij ha hb => ?_, smartSortCompare_neg_iff⟩
  have h := pairwise_getElem? (smartSort_sorted l) hij ha hb
  have h2 := (smartSortCompare_le_iff a b).mp h
  exact ⟨fun h3 => h2 ((smartSortCompare_neg_iff b a).mp h3), h2⟩

/-- Witness for C4: sorting the sample reviews puts review A first and the
comparator does not rank review B before it. -/
theorem smartSort_ordered_by_priority_witness :
    smartSort [sampleB, sampleA] = [sampleA, sampleB] ∧
    ¬ smartSortCompare sampleB sampleA < 0 ∧ ¬ ranksBefore sampleB sampleA :=
  ⟨by decide, smartSort_ordered_by_priority.1 [sampleB, sampleA] 0 1 sampleA sampleB
    (by decide) (by decide) (by decide)⟩

/-- C5: rule 1 dominates every other key: a recommended review compares
before a review that is not recommended whatever their other fields, so in
every sorted list no review that is not recommended stands before a
recommended one. -/
theorem ai_recommended_dominates :
    (∀ A B : Review, A.ai_recommended = true → B.ai_recommended = false →
      smartSortCompare A B = -1 ∧ smartSortCompare B A = 1) ∧
    (∀ (l : List Review) (i j : Nat) (a b : Review), i < j →
      (smartSort l)[i]? = some a → (smartSort l)[j]? = some b →
      b.ai_recommended = true → a.ai_recommended = true) := by
  refine ⟨fun A B hA hB => ?_, fun l i j a b hij ha hb hbai => ?_⟩
  · unfold smartSortCompare; simp [hA, hB]
  · have h := pairwise_getElem? (smartSort_sorted l) hij ha hb
    by_contra hne
    have hfa : a.ai_recommended = false := by simpa using hne
    have hc : smartSortCompare a b = 1 := by
      unfold smartSortCompare; simp [hfa, hbai]
    omega

/-- Witness for C5: review A (recommended, short text, no image, rating 50,
quality 1) ranks before review B (detailed text, one image, rating 90,
quality 9). -/
theorem ai_recommended_dominates_witness :
    sampleA.ai_recommended = true ∧ sampleB.ai_recommended = false ∧
    smartSortCompare sampleA sampleB = -1 ∧ smartSortCompare sampleB sampleA = 1 :=
  ⟨rfl, rfl, ai_recommended_dominates.1 sampleA sampleB rfl rfl⟩

/-! ## Star normalisation -/

theorem normalizedStar_of_gt (r : Int) (h : 5 < r) : normalizedStar r = (r + 19) / 20 := by
  unfold normalizedStar
  rw [if_pos h, Int.ceil_eq_iff]
  have h1 : 20 * ((r + 19) / 20) ≤ r + 19 := by omega
  have h2 : r ≤ 20 * ((r + 19) / 20) := by omega
  have h1q : (20 : ℚ) * (((r + 19) / 20 : Int) : ℚ) ≤ (r : ℚ) + 19 := by exact_mod_cast h1
  have h2q : (r : ℚ) ≤ 20 * (((r + 19) / 20 : Int) : ℚ) := by exact_mod_cast h2
  constructor <;> linarith

theorem normalizedStar_of_le (r : Int) (h : r ≤ 5) : normalizedStar r = r := by
  unfold normalizedStar
  rw [if_neg (by omega)]

theorem normalizedStar_eq_specStar (r : Int) : normalizedStar r = specStar r := by
  unfold specStar
  split_ifs with h
  · exact normalizedStar_of_gt r h
  · exact normalizedStar_of_le r (by omega)

/-- C6: the star normalisation maps every rating above 5 to the ceiling of
rating / 100 * 5 and every rating of at most 5 to itself; 85 maps to 5, 50 to
3 and 4 stays 4.  The statistics and the 4-5 star and 3 star import subsets
are selected by this normalised value. -/
theorem normalizedStar_dual_scale :
    (∀ r : Int, 5 < r → normalizedStar r = ⌈((r : ℚ) / 100) * 5⌉ ∧
      normalizedStar r = (r + 19) / 20) ∧
    (∀ r : Int, r ≤ 5 → normalizedStar r = r) ∧
    normalizedStar 85 = 5 ∧ normalizedStar 50 = 3 ∧ normalizedStar 4 = 4 ∧
    (∀ r : Review, is45Star r = true ↔
      (normalizedStar r.rating = 4 ∨ normalizedStar r.rating = 5)) ∧
    (∀ r : Review, is3Star r = true ↔ normalizedStar r.rating = 3) ∧
    (∀ s : Client, (applyFilter s).stats.reviews_45star = (s.allReviews.filter is45Star).length ∧
      (applyFilter s).stats.reviews_3star = (s.allReviews.filter is3Star).length ∧
      import45StarSubset s = s.allReviews.filter is45Star ∧
      import3StarSubset s = s.allReviews.filter is3Star) := by
  refine ⟨fun r h => ⟨?_, normalizedStar_of_gt r h⟩, normalizedStar_of_le, ?_, ?_, ?_,
    fun r => ?_, fun r => ?_, fun s => ⟨rfl, rfl, rfl, rfl⟩⟩
  · unfold normalizedStar; rw [if_pos h]
  · rw [normalizedStar_of_gt 85 (by decide)]; decide
  · rw [normalizedStar_of_gt 50 (by decide)]; decide
  · rw [normalizedStar_of_le 4 (by decide)]
  · simp [is45Star]
  · simp [is3Star]

/-- Witness for C6: the rating 85 lies above 5 and is normalised to 5 stars. -/
theorem normalizedStar_dual_scale_witness :
    (5 : Int) < 85 ∧ normalizedStar 85 = ⌈((85 : Int) : ℚ) / 100 * 5⌉ ∧
    normalizedStar 85 = (85 + 19) / 20 ∧ ((4 : Int) ≤ 5 ∧ normalizedStar 4 = 4) :=
  ⟨by decide, (normalizedStar_dual_scale.1 85 (by decide)).1,
    (normalizedStar_dual_scale.1 85 (by decide)).2,
    by decide, normalizedStar_dual_scale.2.1 4 (by decide)⟩

/-! ## Filtering -/

theorem hasPhotos_eq (r : Review) : hasPhotos r = !r.images.isEmpty := by
  unfold hasPhotos
  cases h : r.images <;> simp

theorem specCategoryPredicate_eq (f : String) (r : Review) :
    specCategoryPredicate f r =
      if f = "photos" then hasPhotos r
      else if f = "ai_recommended" then r.ai_recommended
      else if f = "4-5stars" then decide (r.rating ≥ 70)
      else if f = "3stars" then (decide (r.rating ≥ 50) && decide (r.rating < 70))
      else if f = "5stars" then decide (r.rating ≥ 90)
      else true := by
  unfold specCategoryPredicate
  rw [hasPhotos_eq]
  by_cases h0 : f = "all"
  · subst h0; simp
  · rw [if_neg h0]
    split_ifs <;> simp

theorem categoryFilter_eq_filter (f : String) (l : List Review) :
    categoryFilter f l = l.filter (specCategoryPredicate f) := by
  have key : specCategoryPredicate f = fun r =>
      if f = "photos" then hasPhotos r
      else if f = "ai_recommended" then r.ai_recommended
      else if f = "4-5stars" then decide (r.rating ≥ 70)
      else if f = "3stars" then (decide (r.rating ≥ 50) && decide (r.rating < 70))
      else if f = "5stars" then decide (r.rating ≥ 90)
      else true := funext (specCategoryPredicate_eq f)
  rw [key]
  unfold categoryFilter
  split_ifs <;> first | rfl | simp

theorem countryFilter_eq_filter (c : String) (l : List Review) :
    countryFilter c l = l.filter (specCountryPredicate c) := by
  have key : specCountryPredicate c = fun r => decide (r.country = c ∨ c = "all") :=
    funext (fun _ => rfl)
  rw [key]
  unfold countryFilter
  by_cases h : c = "all"
  · subst h
    simp
  · simp only [ne_eq, h, not_false_eq_true, if_true, or_false]
    congr 1

/-- C7: for every allReviews, filter and country, the view produced by
applyFilter is a permutation of the sub-list of allReviews whose reviews
satisfy both the category predicate and the country predicate: no other
review is in the view and none that qualifies is missing. -/
theorem applyFilter_view_perm_qualifying (s : Client) :
    (applyFilter s).reviews.Perm
      (s.allReviews.filter (fun r =>
        specCategoryPredicate s.currentFilter r && specCountryPredicate s.selectedCountry r)) ∧
    (∀ r, r ∈ (applyFilter s).reviews ↔
      (r ∈ s.allReviews ∧ specCategoryPredicate s.currentFilter r = true ∧
        specCountryPredicate s.selectedCountry r = true)) ∧
    (∀ r, (applyFilter s).reviews.count r =
      (s.allReviews.filter (fun r =>
        specCategoryPredicate s.currentFilter r &&
          specCountryPredicate s.selectedCountry r)).count r) := by
  have hp : (applyFilter s).reviews.Perm
      (s.allReviews.filter (fun r =>
        specCategoryPredicate s.currentFilter r &&
          specCountryPredicate s.selectedCountry r)) := by
    rw [applyFilter_reviews, categoryFilter_eq_filter, countryFilter_eq_filter,
      List.filter_filter]
    refine (smartSort_perm _).trans ?_
    have hfun : (fun a => specCountryPredicate s.selectedCountry a &&
        specCategoryPredicate s.currentFilter a) =
        (fun r => specCategoryPredicate s.currentFilter r &&
          specCountryPredicate s.selectedCountry r) := by
      funext r; exact Bool.and_comm _ _
    rw [hfun]
  refine ⟨hp, fun r => ?_, fun r => hp.count_eq r⟩
  rw [hp.mem_iff, List.mem_filter, Bool.and_eq_true]

theorem is45Star_eq (r : Review) :
    is45Star r = (specStar r.rating == 4 || specStar r.rating == 5) := by
  unfold is45Star
  rw [normalizedStar_eq_specStar]

theorem is3Star_eq (r : Review) : is3Star r = (specStar r.rating == 3) := by
  unfold is3Star
  rw [normalizedStar_eq_specStar]

/-- C8 (the code departs from the claim): on a session holding a review rated
4 on the 1-5 scale and a review rated 65, both of normalised star 4, the
4-5 star filter shows neither of them while the statistic reviews_45star on
its button and the import45Star subset count both; the 3 star filter shows the
review rated 65 while reviews_3star is 0. -/
theorem star_filter_disagrees_with_statistics :
    normalizedStar sampleStar4.rating = 4 ∧ normalizedStar sampleScore65.rating = 4 ∧
    (setFilter sampleStarClient "4-5stars").reviews = [] ∧
    (setFilter sampleStarClient "4-5stars").stats.reviews_45star = 2 ∧
    (import45StarSubset sampleStarClient).length = 2 ∧
    (setFilter sampleStarClient "3stars").reviews = [sampleScore65] ∧
    (setFilter sampleStarClient "3stars").stats.reviews_3star = 0 ∧
    (import3StarSubset sampleStarClient).length = 0 := by
  have h45 : is45Star = fun r => (specStar r.rating == 4 || specStar r.rating == 5) :=
    funext is45Star_eq
  have h3 : is3Star = fun r => (specStar r.rating == 3) := funext is3Star_eq
  refine ⟨?_, ?_, by decide, ?_, ?_, by decide, ?_, ?_⟩
  · rw [normalizedStar_eq_specStar]; decide
  · rw [normalizedStar_eq_specStar]; decide
  · simp only [setFilter, applyFilter, h45]; decide
  · simp only [import45StarSubset, h45]; decide
  · simp only [setFilter, applyFilter, h3]; decide
  · simp only [import3StarSubset, h3]; decide

/-- C9 (counterexample): the sample session has one recommended review, fewer
than 3, yet setFilter with ai_recommended shows that review alone, not the
view of the all filter, keeps the filter name and leaves useSmartSort unset. -/
theorem setFilter_ai_recommended_no_fallback :
    (sampleClient.allReviews.filter Review.ai_recommended).length < 3 ∧
    (applyFilter (setFilter sampleClient "ai_recommended")).reviews = [sampleA] ∧
    (applyFilter (setFilter sampleClient "all")).reviews = [sampleA, sampleB] ∧
    (applyFilter (setFilter sampleClient "ai_recommended")).reviews ≠
      (applyFilter (setFilter sampleClient "all")).reviews ∧
    (applyFilter (setFilter sampleClient "ai_recommended")).useSmartSort ≠ some true ∧
    (applyFilter (setFilter sampleClient "ai_recommended")).currentFilter = "ai_recommended" := by
  refine ⟨by decide, by decide, by decide, by decide, by decide, rfl⟩

/-- C9 (amended): for every session, whatever the number of recommended
reviews, setFilter with ai_recommended followed by applyFilter yields exactly
the recommended reviews that pass the country filter, fully sorted; the filter
name stays ai_recommended and useSmartSort is left as it was. -/
theorem setFilter_ai_recommended_view (s : Client) :
    applyFilter (setFilter s "ai_recommended") = setFilter s "ai_recommended" ∧
    (setFilter s "ai_recommended").reviews =
      smartSort (countryFilter s.selectedCountry (s.allReviews.filter Review.ai_recommended)) ∧
    (∀ r, r ∈ (setFilter s "ai_recommended").reviews ↔
      (r ∈ s.allReviews ∧ r.ai_recommended = true ∧
        specCountryPredicate s.selectedCountry r = true)) ∧
    (setFilter s "ai_recommended").reviews.Pairwise (fun a b => ¬ smartSortCompare b a < 0) ∧
    (setFilter s "ai_recommended").currentFilter = "ai_recommended" ∧
    (setFilter s "ai_recommended").useSmartSort = s.useSmartSort := by
  have hv : (setFilter s "ai_recommended").reviews =
      smartSort (countryFilter s.selectedCountry
        (s.allReviews.filter Review.ai_recommended)) := by
    simp [setFilter, applyFilter_reviews, categoryFilter]
  refine ⟨rfl, hv, fun r => ?_, ?_, rfl, rfl⟩
  · rw [hv, (smartSort_perm _).mem_iff, countryFilter_eq_filter, List.mem_filter,
      List.mem_filter]
    tauto
  · rw [hv]
    refine (smartSort_sorted _).imp ?_
    intro a b h
    have h2 := (smartSortCompare_le_iff a b).mp h
    exact fun h3 => h2 ((smartSortCompare_neg_iff b a).mp h3)

/-- C10: after applyFilter, for every filter, country and previous view, the
statistics total, with_photos, ai_recommended, reviews_45star and
reviews_3star are the length of allReviews and the numbers of reviews of
allReviews with non-empty images, with the recommended flag, with normalised
star 4 or 5 and with normalised star 3: they depend on allReviews only. -/
theorem applyFilter_stats_over_allReviews (s : Client) (filter country : String)
    (view : List Review) (index : Nat) :
    (applyFilter { s with currentFilter := filter, selectedCountry := country,
                          reviews := view, currentIndex := index }).stats =
      (applyFilter s).stats ∧
    (applyFilter s).stats.total = some s.allReviews.length ∧
    (applyFilter s).stats.with_photos = s.allReviews.countP (fun r => !r.images.isEmpty) ∧
    (applyFilter s).stats.ai_recommended = s.allReviews.countP (fun r => r.ai_recommended) ∧
    (applyFilter s).stats.reviews_45star =
      s.allReviews.countP
        (fun r => decide (normalizedStar r.rating = 4 ∨ normalizedStar r.rating = 5)) ∧
    (applyFilter s).stats.reviews_3star =
      s.allReviews.countP (fun r => decide (normalizedStar r.rating = 3)) := by
  refine ⟨rfl, rfl, ?_, ?_, ?_, ?_⟩
  · show (s.allReviews.filter hasPhotos).length = _
    rw [← List.countP_eq_length_filter]
    exact List.countP_congr (fun r _ => by rw [hasPhotos_eq])
  · show (s.allReviews.filter (fun r => r.ai_recommended)).length = _
    rw [← List.countP_eq_length_filter]
  · show (s.allReviews.filter is45Star).length = _
    rw [← List.countP_eq_length_filter]
    exact List.countP_congr (fun r _ => by simp [is45Star])
  · show (s.allReviews.filter is3Star).length = _
    rw [← List.countP_eq_length_filter]
    exact List.countP_congr (fun r _ => by simp [is3Star])

/-! ## Bulk import -/

theorem select_eq_filter (k : BulkKind) (l : List Review) :
    k.select l = l.filter k.predicate := by
  cases k
  · simp only [BulkKind.select]
    exact (List.filter_eq_self.mpr (fun _ _ => rfl)).symm
  · exact List.filter_congr (fun r _ => hasPhotos_eq r)
  · refine List.filter_congr (fun r _ => ?_)
    cases h : r.images <;> simp [BulkKind.predicate, h]
  · rfl
  · exact List.filter_congr (fun r _ => by
    rw [Bool.eq_iff_iff]; simp [BulkKind.predicate, is45Star])
  · exact List.filter_congr (fun r _ => by
    rw [Bool.eq_iff_iff]; simp [BulkKind.predicate, is3Star])

theorem bulkImport_of_busy (k : BulkKind) (userConfirms : Bool) (s : Client)
    (h : s.isImporting = true) : bulkImport k userConfirms s = (s, []) := by
  unfold bulkImport
  rw [if_pos h]

theorem bulkImport_state (k : BulkKind) (userConfirms : Bool) (s : Client) :
    ((bulkImport k userConfirms s).1 = s ∧ bulkRequests (bulkImport k userConfirms s).2 = 0) ∨
    (s.isImporting = false ∧ (bulkImport k userConfirms s).1 = showImportLoader s ∧
      bulkRequests (bulkImport k userConfirms s).2 = 1) := by
  unfold bulkImport
  by_cases hb : s.isImporting = true
  · rw [if_pos hb]; exact Or.inl ⟨rfl, rfl⟩
  · rw [if_neg hb]
    cases hsel : s.selectedProduct with
    | none => exact Or.inl ⟨rfl, rfl⟩
    | some product =>
      simp only
      split_ifs
      · exact Or.inl ⟨rfl, rfl⟩
      · exact Or.inl ⟨rfl, rfl⟩
      · exact Or.inl ⟨rfl, rfl⟩
      · refine Or.inr ⟨by simpa using hb, rfl, ?_⟩
        simp [bulkRequests, Effect.isBulkRequest]

theorem bulkImport_no_request_unchanged (k : BulkKind) (userConfirms : Bool) (s : Client)
    (h : bulkRequests (bulkImport k userConfirms s).2 = 0) :
    (bulkImport k userConfirms s).1 = s := by
  rcases bulkImport_state k userConfirms s with ⟨h1, _⟩ | ⟨_, _, h3⟩
  · exact h1
  · omega

/-- C11: for each bulk import with a subset predicate (with photos, without
photos, recommended, 4-5 stars, 3 stars), when a target is selected,
allReviews is non-empty and no review satisfies the predicate, the operation
returns without any network request and without asking for confirmation, the
state is unchanged, and a busy flag that was false is still false. -/
theorem bulkImport_empty_subset (k : BulkKind) (hk : k ≠ BulkKind.all) (userConfirms : Bool)
    (s : Client) (product : Product) (hsel : s.selectedProduct = some product)
    (hne : s.allReviews ≠ []) (hnone : ∀ r ∈ s.allReviews, k.predicate r = false) :
    (bulkImport k userConfirms s).1 = s ∧
    (∀ e ∈ (bulkImport k userConfirms s).2, e.isRequest = false ∧ e.isConfirm = false) ∧
    (s.isImporting = false →
      (bulkImport k userConfirms s).2 = [Effect.alert (Alert.emptySubset k)] ∧
      (bulkImport k userConfirms s).1.isImporting = false) := by
  have hsub : (k.select s.allReviews).length = 0 := by
    rw [select_eq_filter, List.length_eq_zero, List.filter_eq_nil_iff]
    intro r hr
    simp [hnone r hr]
  have hchk : k.checksSubset = true := by cases k <;> first | rfl | exact absurd rfl hk
  have hlen : ¬ s.allReviews.length = 0 := by
    rw [List.length_eq_zero]; exact hne
  by_cases hb : s.isImporting = true
  · rw [bulkImport_of_busy k userConfirms s hb]
    exact ⟨rfl, by simp, fun h => by rw [h] at hb; exact absurd hb (by decide)⟩
  · have hval : bulkImport k userConfirms s = (s, [Effect.alert (Alert.emptySubset k)]) := by
      unfold bulkImport
      rw [if_neg hb, hsel]
      simp only
      rw [if_neg hlen, if_pos ⟨hchk, hsub⟩]
    rw [hval]
    refine ⟨rfl, ?_, fun h => ⟨rfl, h⟩⟩
    intro e he
    simp only [List.mem_singleton] at he
    subst he
    exact ⟨rfl, rfl⟩

/-- Witness for C11: importWithPhotos on a session with a selected target whose
two reviews have no images only shows the empty-subset message. -/
theorem bulkImport_empty_subset_witness :
    importWithPhotos true samplePhotolessClient =
      (samplePhotolessClient, [Effect.alert (Alert.emptySubset BulkKind.withPhotos)]) ∧
    (bulkImport BulkKind.withPhotos true samplePhotolessClient).1 = samplePhotolessClient ∧
    (bulkImport BulkKind.withPhotos true samplePhotolessClient).1.isImporting = false :=
  ⟨by decide,
    (bulkImport_empty_subset BulkKind.withPhotos (by decide) true samplePhotolessClient
      sampleProduct rfl (by decide) (by decide)).1,
    ((bulkImport_empty_subset BulkKind.withPhotos (by decide) true samplePhotolessClient
      sampleProduct rfl (by decide) (by decide)).2.2 rfl).2⟩

/-! ## The busy flag along a session -/

theorem loadReviewsDone_isImporting (o : Outcome PageResult) (s : Client) :
    (loadReviewsDone o s).1.isImporting = s.isImporting := by
  cases o with
  | exception => rfl
  | response result =>
    simp only [loadReviewsDone]
    split_ifs <;> rfl

theorem nextReview_isImporting (s : Client) :
    (nextReview s).1.isImporting = s.isImporting := by
  unfold nextReview
  split_ifs <;> rfl

theorem prevReview_isImporting (s : Client) :
    (prevReview s).isImporting = s.isImporting := by
  unfold prevReview
  split_ifs <;> rfl

theorem importReview_state (s : Client) : (importReview s).1 = s := by
  unfold importReview
  split
  · rfl
  · split <;> rfl

theorem skipReview_state (s : Client) : (skipReview s).1 = s := by
  unfold skipReview
  split <;> rfl

theorem importReviewDone_isImporting (o : Outcome SingleResult) (s : Client) :
    (importReviewDone o s).1.isImporting = s.isImporting := by
  cases o with
  | exception => rfl
  | response result =>
    simp only [importReviewDone]
    split_ifs <;> first | rfl | exact nextReview_isImporting s

theorem skipReviewDone_isImporting (o : Outcome SkipResult) (s : Client) :
    (skipReviewDone o s).1.isImporting = s.isImporting := by
  cases o with
  | exception => rfl
  | response result =>
    simp only [skipReviewDone]
    split_ifs <;> first | rfl | exact nextReview_isImporting s

theorem bulkImportDone_state (k : BulkKind) (o : Outcome BulkResult) (s : Client) :
    (bulkImportDone k o s).1 = hideImportLoader s := by
  cases o with
  | exception => rfl
  | response result =>
    simp only [bulkImportDone]
    split_ifs <;> rfl

theorem busyInvariant_step (w : World) (e : Event) (h : BusyInvariant w) :
    BusyInvariant (w.step e) := by
  unfold BusyInvariant at *
  cases e with
  | loadReviews page => exact h
  | loadReviewsDone o =>
    simp only [World.step, loadReviewsDone_isImporting]; exact h
  | setFilter filter => exact h
  | setCountry country => exact h
  | nextReview => simp only [World.step, nextReview_isImporting]; exact h
  | prevReview => simp only [World.step, prevReview_isImporting]; exact h
  | importReview => simp only [World.step, importReview_state]; exact h
  | importReviewDone o =>
    simp only [World.step, importReviewDone_isImporting]; exact h
  | skipReview => simp only [World.step, skipReview_state]; exact h
  | skipReviewDone o =>
    simp only [World.step, skipReviewDone_isImporting]; exact h
  | selectProduct product => exact h
  | clearProduct => exact h
  | bulkImport k userConfirms =>
    simp only [World.step]
    rcases bulkImport_state k userConfirms w.client with ⟨h1, h2⟩ | ⟨h1, h2, h3⟩
    · simp only [h1, h2, Nat.add_zero]; exact h
    · simp only [h2, h3, showImportLoader, if_true]
      rw [h, h1]; rfl
  | bulkImportDone k o =>
    by_cases hpos : 0 < w.bulkInFlight
    · have h1 : w.bulkInFlight = 1 := by
        by_cases hi : w.client.isImporting = true
        · rw [if_pos hi] at h; exact h
        · rw [if_neg hi] at h; omega
      simp only [World.step, if_pos hpos, bulkImportDone_state, hideImportLoader, h1]
      rfl
    · simp only [World.step, if_neg hpos]; exact h

theorem busyInvariant_run (events : List Event) :
    ∀ w : World, BusyInvariant w → BusyInvariant (w.run events) := by
  induction events with
  | nil => intro w h; exact h
  | cons e events ih =>
    intro w h
    exact ih (w.step e) (busyInvariant_step w e h)

/-- C12: every bulk import called while isImporting is true is a no-op, no
request is issued and the session state is unchanged; consequently, along
every session from the initial state, at most one bulk request is in flight,
and one is in flight exactly while isImporting is true. -/
theorem bulkImport_busy_is_noop :
    (∀ (k : BulkKind) (userConfirms : Bool) (s : Client), s.isImporting = true →
      bulkImport k userConfirms s = (s, [])) ∧
    (∀ (sessionId : String) (events : List Event),
      ((World.initial sessionId).run events).bulkInFlight ≤ 1 ∧
      (((World.initial sessionId).run events).bulkInFlight = 1 ↔
        ((World.initial sessionId).run events).client.isImporting = true)) := by
  refine ⟨bulkImport_of_busy, fun sessionId events => ?_⟩
  have h := busyInvariant_run events (World.initial sessionId) rfl
  unfold BusyInvariant at h
  rw [h]
  split_ifs with hi
  · exact ⟨le_refl _, by simp [hi]⟩
  · exact ⟨by omega, by simp [hi]⟩

/-- Witness for C12: after a first importAllReviews has dispatched, a second
call (here importWithPhotos) changes nothing and sends nothing, and the
session has one request in flight. -/
theorem bulkImport_busy_is_noop_witness :
    (importAllReviews true sampleLoadedClient).1.isImporting = true ∧
    bulkImport BulkKind.withPhotos true (importAllReviews true sampleLoadedClient).1 =
      ((importAllReviews true sampleLoadedClient).1, []) ∧
    (({ client := sampleLoadedClient, bulkInFlight := 0 } : World).run
      [Event.bulkImport BulkKind.all true,
       Event.bulkImport BulkKind.withPhotos true]).bulkInFlight = 1 :=
  ⟨by decide,
    bulkImport_busy_is_noop.1 BulkKind.withPhotos true
      (importAllReviews true sampleLoadedClient).1 (by decide),
    by decide⟩

theorem select_nil (k : BulkKind) : k.select [] = [] := by
  cases k <;> rfl

theorem bulkImport_dispatch (k : BulkKind) (s : Client) (product : Product)
    (hb : s.isImporting = false) (hsel : s.selectedProduct = some product)
    (hsub : k.select s.allReviews ≠ []) :
    bulkImport k true s =
      (showImportLoader s,
        [Effect.confirm (k.select s.allReviews).length (k.negatives (k.select s.allReviews)),
         Effect.bulkRequest
          { reviews := k.select s.allReviews
            shopify_product_id := product.id
            session_id := s.sessionId
            platform := "aliexpress"
            min_quality_score := k.minQualityScore }]) := by
  have hall : ¬ s.allReviews.length = 0 := by
    intro h
    rw [List.length_eq_zero] at h
    rw [h, select_nil] at hsub
    exact hsub rfl
  have hlen : ¬ (k.checksSubset = true ∧ (k.select s.allReviews).length = 0) := by
    intro h
    exact hsub (List.length_eq_zero.mp h.2)
  unfold bulkImport
  rw [if_neg (by simp [hb]), hsel]
  simp only
  rw [if_neg hall, if_neg hlen]
  rfl

/-- C13: a bulk import that dispatched its request has raised isImporting, and
once the request has completed isImporting is false in each of the three
outcomes (success true, success false, exception), whatever happened to the
session in between; a later bulk call with a target and a non-empty subset is
then dispatched. -/
theorem bulkImportDone_clears_busy :
    (∀ (k : BulkKind) (userConfirms : Bool) (s : Client) (body : BulkBody),
      Effect.bulkRequest body ∈ (bulkImport k userConfirms s).2 →
      (bulkImport k userConfirms s).1.isImporting = true) ∧
    (∀ (k : BulkKind) (s : Client),
      (bulkImportDone k (Outcome.response { success := true }) s).1.isImporting = false ∧
      (bulkImportDone k (Outcome.response { success := false }) s).1.isImporting = false ∧
      (bulkImportDone k Outcome.exception s).1.isImporting = false) ∧
    (∀ (k k2 : BulkKind) (o : Outcome BulkResult) (s : Client) (product : Product),
      s.selectedProduct = some product → k2.select s.allReviews ≠ [] →
      bulkRequests (bulkImport k2 true (bulkImportDone k o s).1).2 = 1) := by
  refine ⟨fun k c s body hmem => ?_, fun k s => ⟨rfl, rfl, rfl⟩,
    fun k k2 o s product hsel hsub => ?_⟩
  · rcases bulkImport_state k c s with ⟨_, h2⟩ | ⟨_, h2, _⟩
    · exfalso
      have hpos : 0 < bulkRequests (bulkImport k c s).2 :=
        List.countP_pos_iff.mpr ⟨_, hmem, rfl⟩
      omega
    · rw [h2]; rfl
  · rw [bulkImportDone_state]
    rw [bulkImport_dispatch k2 (hideImportLoader s) product rfl hsel hsub]
    simp [bulkRequests, Effect.isBulkRequest]

/-- Witness for C13: importAllReviews on the loaded sample session dispatches
and raises the flag; after a failed response the flag is down and
importWithPhotos is dispatched. -/
theorem bulkImportDone_clears_busy_witness :
    (importAllReviews true sampleLoadedClient).1.isImporting = true ∧
    (bulkImportDone BulkKind.all (Outcome.response { success := false })
      (importAllReviews true sampleLoadedClient).1).1.isImporting = false ∧
    bulkRequests (bulkImport BulkKind.withPhotos true
      (bulkImportDone BulkKind.all Outcome.exception sampleLoadedClient).1).2 = 1 :=
  ⟨by decide,
    (bulkImportDone_clears_busy.2.1 BulkKind.all (importAllReviews true sampleLoadedClient).1).2.1,
    bulkImportDone_clears_busy.2.2 BulkKind.all BulkKind.withPhotos Outcome.exception
      sampleLoadedClient sampleProduct rfl (by decide)⟩

/-- C14: for every bulk import, if no target product is selected, or
allReviews is empty, or the user declines the confirmation, the operation
issues no network request and leaves the session unchanged: isImporting, when
it was false, remains false. -/
theorem bulkImport_precondition_fails (k : BulkKind) (userConfirms : Bool) (s : Client)
    (h : s.selectedProduct = none ∨ s.allReviews = [] ∨ userConfirms = false) :
    (∀ e ∈ (bulkImport k userConfirms s).2, e.isRequest = false) ∧
    (bulkImport k userConfirms s).1 = s ∧
    (s.isImporting = false → (bulkImport k userConfirms s).1.isImporting = false) := by
  have key : (∀ e ∈ (bulkImport k userConfirms s).2, e.isRequest = false) ∧
      (bulkImport k userConfirms s).1 = s := by
    unfold bulkImport
    by_cases hb : s.isImporting = true
    · rw [if_pos hb]; simp
    · rw [if_neg hb]
      cases hsel : s.selectedProduct with
      | none => simp [Effect.isRequest]
      | some product =>
        simp only
        by_cases hall : s.allReviews.length = 0
        · rw [if_pos hall]; simp [Effect.isRequest]
        · rw [if_neg hall]
          split_ifs with h1 h2
          · simp [Effect.isRequest]
          · simp [Effect.isRequest]
          · exfalso
            rcases h with h | h | h
            · rw [hsel] at h; exact Option.noConfusion h
            · exact hall (by rw [h]; rfl)
            · rw [h] at h2; exact h2 rfl
  exact ⟨key.1, key.2, fun hf => by rw [key.2]; exact hf⟩

/-- Witness for C14: on the loaded sample session a declined confirmation
leaves the state as it was and only shows the dialog. -/
theorem bulkImport_precondition_fails_witness :
    (bulkImport BulkKind.aiRecommended false sampleLoadedClient).1 = sampleLoadedClient ∧
    (bulkImport BulkKind.aiRecommended false sampleLoadedClient).1.isImporting = false ∧
    bulkRequests (bulkImport BulkKind.aiRecommended false sampleLoadedClient).2 = 0 ∧
    (bulkImport BulkKind.all true (Client.initial "k3x9q2m1z")).2 =
      [Effect.alert Alert.selectTargetFirst] :=
  ⟨(bulkImport_precondition_fails BulkKind.aiRecommended false sampleLoadedClient
      (Or.inr (Or.inr rfl))).2.1,
    (bulkImport_precondition_fails BulkKind.aiRecommended false sampleLoadedClient
      (Or.inr (Or.inr rfl))).2.2 rfl,
    by decide, by decide⟩

theorem bulkImport_request_body (k : BulkKind) (userConfirms : Bool) (s : Client)
    (body : BulkBody) (h : Effect.bulkRequest body ∈ (bulkImport k userConfirms s).2) :
    body.reviews = k.select s.allReviews := by
  unfold bulkImport at h
  by_cases hb : s.isImporting = true
  · rw [if_pos hb] at h; simp at h
  · rw [if_neg hb] at h
    cases hsel : s.selectedProduct with
    | none => rw [hsel] at h; simp at h
    | some product =>
      rw [hsel] at h
      simp only at h
      split_ifs at h
      · simp at h
      · simp at h
      · simp at h
      · simp only [List.mem_cons, List.mem_singleton, reduceCtorEq, Effect.bulkRequest.injEq,
          false_or, List.not_mem_nil, or_false] at h
        rw [h]

theorem bulkImport_effects_frame (k : BulkKind) (userConfirms : Bool) (s : Client)
    (filter country : String) (index : Nat) (view : List Review) :
    (bulkImport k userConfirms
      { s with currentFilter := filter, selectedCountry := country,
               currentIndex := index, reviews := view }).2 =
    (bulkImport k userConfirms s).2 := by
  unfold bulkImport
  simp only
  by_cases hb : s.isImporting = true
  · rw [if_pos hb, if_pos hb]
  · rw [if_neg hb, if_neg hb]
    cases s.selectedProduct with
    | none => rfl
    | some product =>
      simp only
      split_ifs <;> rfl

/-- C15: the reviews list sent by a bulk import is the sub-list of allReviews,
in allReviews order, of the reviews satisfying the predicate of its kind
(importAllReviews sends allReviews itself), and the effects of the call are
the same for two states that differ only in currentFilter, selectedCountry,
currentIndex or the displayed view. -/
theorem bulkImport_sends_subset_of_allReviews :
    (∀ (k : BulkKind) (userConfirms : Bool) (s : Client) (body : BulkBody),
      Effect.bulkRequest body ∈ (bulkImport k userConfirms s).2 →
      body.reviews = s.allReviews.filter k.predicate ∧
      body.reviews.Sublist s.allReviews ∧
      (k = BulkKind.all → body.reviews = s.allReviews)) ∧
    (∀ (k : BulkKind) (userConfirms : Bool) (s : Client) (filter country : String)
      (index : Nat) (view : List Review),
      (bulkImport k userConfirms
        { s with currentFilter := filter, selectedCountry := country,
                 currentIndex := index, reviews := view }).2 =
      (bulkImport k userConfirms s).2) := by
  refine ⟨fun k c s body h => ?_, bulkImport_effects_frame⟩
  have hb := bulkImport_request_body k c s body h
  refine ⟨by rw [hb, select_eq_filter], ?_, fun hk => by rw [hb, hk]; rfl⟩
  rw [hb, select_eq_filter]
  exact List.filter_sublist _

/-- Witness for C15: importWithoutPhotos on the loaded sample session, whose
view is sorted differently from allReviews, sends the one review without
images. -/
theorem bulkImport_sends_subset_of_allReviews_witness :
    (importWithoutPhotos true sampleLoadedClient).2 =
      [Effect.confirm 1 0,
       Effect.bulkRequest
        { reviews := [sampleA], shopify_product_id := "8001", session_id := "k3x9q2m1z",
          platform := "aliexpress", min_quality_score := none }] ∧
    ([sampleA] = sampleLoadedClient.allReviews.filter BulkKind.withoutPhotos.predicate ∧
      [sampleA].Sublist sampleLoadedClient.allReviews ∧
      (BulkKind.withoutPhotos = BulkKind.all → [sampleA] = sampleLoadedClient.allReviews)) := by
  have hsel : BulkKind.withoutPhotos.select sampleLoadedClient.allReviews = [sampleA] := by
    decide
  have hneg : BulkKind.withoutPhotos.negatives [sampleA] = 0 := by
    simp only [BulkKind.negatives, List.filter, isNegative, normalizedStar_eq_specStar]
    decide
  have hval : (importWithoutPhotos true sampleLoadedClient).2 =
      [Effect.confirm 1 0,
       Effect.bulkRequest
        { reviews := [sampleA], shopify_product_id := "8001", session_id := "k3x9q2m1z",
          platform := "aliexpress", min_quality_score := none }] := by
    unfold importWithoutPhotos
    rw [bulkImport_dispatch BulkKind.withoutPhotos sampleLoadedClient sampleProduct rfl rfl
      (by decide), hsel, hneg]
    rfl
  refine ⟨hval, bulkImport_sends_subset_of_allReviews.1 BulkKind.withoutPhotos true
    sampleLoadedClient
    { reviews := [sampleA], shopify_product_id := "8001", session_id := "k3x9q2m1z",
      platform := "aliexpress", min_quality_score := none } ?_⟩
  have hval2 : (bulkImport BulkKind.withoutPhotos true sampleLoadedClient).2 =
      (importWithoutPhotos true sampleLoadedClient).2 := rfl
  rw [hval2, hval]
  simp

/-! ## Loading, single import, skip and the cursor -/

/-- C16: for every prior state and every successful page response, after
loadReviews the list allReviews is exactly the list of the response (replaced,
not appended to), so its length is the response length, and pagination is the
pagination of the response. -/
theorem loadReviewsDone_replaces_allReviews (s : Client) (result : PageResult)
    (h : result.success = true) :
    (loadReviewsDone (Outcome.response result) s).1.allReviews = result.reviews ∧
    (loadReviewsDone (Outcome.response result) s).1.allReviews.length =
      result.reviews.length ∧
    (loadReviewsDone (Outcome.response result) s).1.pagination = result.pagination := by
  have key : (loadReviewsDone (Outcome.response result) s).1.allReviews = result.reviews ∧
      (loadReviewsDone (Outcome.response result) s).1.pagination = result.pagination := by
    simp only [loadReviewsDone, h, if_true]
    split_ifs <;> exact ⟨rfl, rfl⟩
  exact ⟨key.1, by rw [key.1], key.2⟩

/-- Witness for C16: loading the sample page into a session that already holds
two reviews leaves two reviews, not four. -/
theorem loadReviewsDone_replaces_allReviews_witness :
    sampleLoadedClient.allReviews.length = 2 ∧ samplePage.success = true ∧
    (loadReviewsDone (Outcome.response samplePage) sampleLoadedClient).1.allReviews =
      [sampleB, sampleA] ∧
    (loadReviewsDone (Outcome.response samplePage) sampleLoadedClient).1.allReviews.length =
      samplePage.reviews.length ∧
    (loadReviewsDone (Outcome.response samplePage) sampleLoadedClient).1.pagination =
      { has_next := true, page := 1 } :=
  ⟨rfl, rfl, loadReviewsDone_replaces_allReviews sampleLoadedClient samplePage rfl⟩

/-- C17: when the response of importReview has success true, a duplicate
leaves the session (cursor, view, pagination) unchanged and a new import
leaves exactly the state produced by nextReview; with no selected target
importReview issues no request and changes nothing. -/
theorem importReview_duplicate_or_advance :
    (∀ (s : Client) (result : SingleResult), result.success = true →
      result.duplicate = true →
      (importReviewDone (Outcome.response result) s).1 = s ∧
      (importReviewDone (Outcome.response result) s).2 =
        [Effect.analytics s.sessionId, Effect.alert Alert.importDuplicate]) ∧
    (∀ (s : Client) (result : SingleResult), result.success = true →
      result.duplicate = false →
      (importReviewDone (Outcome.response result) s).1 = (nextReview s).1 ∧
      (importReviewDone (Outcome.response result) s).2 =
        [Effect.analytics s.sessionId, Effect.alert Alert.importDone] ++ (nextReview s).2) ∧
    (∀ s : Client, s.selectedProduct = none →
      (importReview s).1 = s ∧ (∀ e ∈ (importReview s).2, e.isRequest = false)) := by
  refine ⟨fun s result h1 h2 => ?_, fun s result h1 h2 => ?_, fun s h => ?_⟩
  · simp [importReviewDone, h1, h2]
  · simp [importReviewDone, h1, h2]
  · unfold importReview
    rw [h]
    simp [Effect.isRequest]

/-- Witness for C17: on the loaded sample session with the cursor on the first
of two reviews, a duplicate keeps the cursor at 0 and a new import moves it
to 1. -/
theorem importReview_duplicate_or_advance_witness :
    (importReviewDone (Outcome.response { success := true, duplicate := true })
      sampleLoadedClient).1 = sampleLoadedClient ∧
    (importReviewDone (Outcome.response { success := true, duplicate := false })
      sampleLoadedClient).1 = (nextReview sampleLoadedClient).1 ∧
    (nextReview sampleLoadedClient).1.currentIndex = 1 ∧
    (importReview (Client.initial "k3x9q2m1z")).1 = Client.initial "k3x9q2m1z" :=
  ⟨(importReview_duplicate_or_advance.1 sampleLoadedClient
      { success := true, duplicate := true } rfl rfl).1,
    (importReview_duplicate_or_advance.2.1 sampleLoadedClient
      { success := true, duplicate := false } rfl rfl).1,
    by decide,
    (importReview_duplicate_or_advance.2.2 (Client.initial "k3x9q2m1z") rfl).1⟩

/-- C18 (counterexample): on the loaded sample session, cursor on the first of
two reviews, a skip request answered with success false, or failing with an
exception, leaves the cursor at 0 while nextReview moves it to 1. -/
theorem skipReview_failure_does_not_advance :
    (nextReview sampleLoadedClient).1.currentIndex = 1 ∧
    (skipReviewDone (Outcome.response { success := false }) sampleLoadedClient).1.currentIndex
      = 0 ∧
    (skipReviewDone (Outcome.response { success := false }) sampleLoadedClient).1 ≠
      (nextReview sampleLoadedClient).1 ∧
    (skipReviewDone Outcome.exception sampleLoadedClient).1 ≠
      (nextReview sampleLoadedClient).1 := by
  refine ⟨by decide, by decide, ?_, ?_⟩
  · intro h
    have h2 := congrArg Client.currentIndex h
    revert h2
    decide
  · intro h
    have h2 := congrArg Client.currentIndex h
    revert h2
    decide

/-- C18 (amended): skipReview advances when the skip request succeeds: for
every state, a response with success true leaves exactly the state produced by
nextReview; a response with success false and an exception leave the state
unchanged and only show a failure message. -/
theorem skipReview_advances_on_success (s : Client) :
    (skipReviewDone (Outcome.response { success := true }) s).1 = (nextReview s).1 ∧
    (skipReviewDone (Outcome.response { success := true }) s).2 =
      Effect.alert Alert.skipDone :: (nextReview s).2 ∧
    skipReviewDone (Outcome.response { success := false }) s =
      (s, [Effect.alert Alert.skipFailed]) ∧
    skipReviewDone Outcome.exception s = (s, [Effect.alert Alert.skipException]) ∧
    (skipReview s).1 = s :=
  ⟨rfl, rfl, rfl, rfl, skipReview_state s⟩

/-- C19: nextReview increases currentIndex by exactly 1 when currentIndex is
below view length - 1; otherwise, when pagination.has_next holds, it requests
page pagination.page + 1 and leaves the state unchanged; otherwise it leaves
the state unchanged and reports 'No more reviews!'.  prevReview decreases
currentIndex by exactly 1 when it is positive and leaves it at 0 otherwise. -/
theorem cursor_steps :
    (∀ s : Client, (s.currentIndex : Int) < (s.reviews.length : Int) - 1 →
      nextReview s = ({ s with currentIndex := s.currentIndex + 1 }, []) ∧
      (nextReview s).1.currentIndex = s.currentIndex + 1) ∧
    (∀ s : Client, ¬ (s.currentIndex : Int) < (s.reviews.length : Int) - 1 →
      s.pagination.has_next = true →
      nextReview s = (s, [Effect.pageRequest (s.pagination.page + 1) s.sessionId])) ∧
    (∀ s : Client, ¬ (s.currentIndex : Int) < (s.reviews.length : Int) - 1 →
      s.pagination.has_next = false →
      nextReview s = (s, [Effect.alert Alert.noMoreReviews])) ∧
    (∀ s : Client, 0 < s.currentIndex →
      prevReview s = { s with currentIndex := s.currentIndex - 1 } ∧
      (prevReview s).currentIndex + 1 = s.currentIndex) ∧
    (∀ s : Client, ¬ 0 < s.currentIndex →
      prevReview s = s ∧ (prevReview s).currentIndex = 0) := by
  refine ⟨fun s h => ?_, fun s h hn => ?_, fun s h hn => ?_, fun s h => ?_, fun s h => ?_⟩
  · unfold nextReview
    rw [if_pos h]
    exact ⟨rfl, rfl⟩
  · unfold nextReview
    rw [if_neg h, if_pos hn]
    rfl
  · unfold nextReview
    rw [if_neg h, if_neg (by simp [hn])]
  · unfold prevReview
    rw [if_pos h]
    exact ⟨rfl, by show s.currentIndex - 1 + 1 = s.currentIndex; omega⟩
  · unfold prevReview
    rw [if_neg h]
    exact ⟨rfl, by omega⟩

/-- Witness for C19: on the loaded sample session the cursor goes from 0 to 1;
at the end of the view with a further page, page 2 is requested; prevReview at
0 stays at 0. -/
theorem cursor_steps_witness :
    (nextReview sampleLoadedClient).1.currentIndex = 1 ∧
    nextReview { sampleLoadedClient with
        currentIndex := 1, pagination := { has_next := true, page := 1 } } =
      ({ sampleLoadedClient with
          currentIndex := 1, pagination := { has_next := true, page := 1 } },
        [Effect.pageRequest 2 "k3x9q2m1z"]) ∧
    nextReview { sampleLoadedClient with currentIndex := 1 } =
      ({ sampleLoadedClient with currentIndex := 1 }, [Effect.alert Alert.noMoreReviews]) ∧
    (prevReview { sampleLoadedClient with currentIndex := 1 }).currentIndex + 1 = 1 ∧
    (prevReview sampleLoadedClient).currentIndex = 0 :=
  ⟨(cursor_steps.1 sampleLoadedClient (by decide)).2,
    cursor_steps.2.1 { sampleLoadedClient with
      currentIndex := 1, pagination := { has_next := true, page := 1 } } (by decide) rfl,
    cursor_steps.2.2.1 { sampleLoadedClient with currentIndex := 1 } (by decide) rfl,
    (cursor_steps.2.2.2.1 { sampleLoadedClient with currentIndex := 1 } (by decide)).2,
    (cursor_steps.2.2.2.2 sampleLoadedClient (by decide)).2⟩

/-! ## The cursor along a session -/

theorem applyFilter_currentIndex (s : Client) : (applyFilter s).currentIndex = 0 := rfl

theorem indexValid_applyFilter (s : Client) : IndexValid (applyFilter s) := Or.inl rfl

theorem indexValid_nextReview (s : Client) (h : IndexValid s) : IndexValid (nextReview s).1 := by
  unfold nextReview
  split_ifs with h1 h2
  · right
    show s.currentIndex + 1 < s.reviews.length
    omega
  · exact h
  · exact h

theorem indexValid_prevReview (s : Client) (h : IndexValid s) : IndexValid (prevReview s) := by
  unfold prevReview
  split_ifs with h1
  · unfold IndexValid at *
    right
    show s.currentIndex - 1 < s.reviews.length
    omega
  · exact h

theorem indexValid_loadReviewsDone (o : Outcome PageResult) (s : Client) (h : IndexValid s) :
    IndexValid (loadReviewsDone o s).1 := by
  cases o with
  | exception => exact h
  | response result =>
    simp only [loadReviewsDone]
    split_ifs <;> first | exact Or.inl rfl | exact h

theorem indexValid_importReviewDone (o : Outcome SingleResult) (s : Client)
    (h : IndexValid s) : IndexValid (importReviewDone o s).1 := by
  cases o with
  | exception => exact h
  | response result =>
    simp only [importReviewDone]
    split_ifs
    · exact h
    · exact indexValid_nextReview s h
    · exact h

theorem indexValid_skipReviewDone (o : Outcome SkipResult) (s : Client)
    (h : IndexValid s) : IndexValid (skipReviewDone o s).1 := by
  cases o with
  | exception => exact h
  | response result =>
    simp only [skipReviewDone]
    split_ifs
    · exact indexValid_nextReview s h
    · exact h

theorem indexValid_step (w : World) (e : Event) (h : IndexValid w.client) :
    IndexValid (w.step e).client := by
  cases e with
  | loadReviews page => exact h
  | loadReviewsDone o => exact indexValid_loadReviewsDone o w.client h
  | setFilter filter => exact Or.inl rfl
  | setCountry country => exact Or.inl rfl
  | nextReview => exact indexValid_nextReview w.client h
  | prevReview => exact indexValid_prevReview w.client h
  | importReview =>
    show IndexValid (importReview w.client).1
    rw [importReview_state]; exact h
  | importReviewDone o => exact indexValid_importReviewDone o w.client h
  | skipReview =>
    show IndexValid (skipReview w.client).1
    rw [skipReview_state]; exact h
  | skipReviewDone o => exact indexValid_skipReviewDone o w.client h
  | selectProduct product => exact h
  | clearProduct => exact h
  | bulkImport k userConfirms =>
    show IndexValid (bulkImport k userConfirms w.client).1
    rcases bulkImport_state k userConfirms w.client with ⟨h1, _⟩ | ⟨_, h2, _⟩
    · rw [h1]; exact h
    · rw [h2]; exact h
  | bulkImportDone k o =>
    simp only [World.step]
    split_ifs
    · show IndexValid (bulkImportDone k o w.client).1
      rw [bulkImportDone_state]; exact h
    · exact h

theorem indexValid_run (events : List Event) :
    ∀ w : World, IndexValid w.client → IndexValid (w.run events).client := by
  induction events with
  | nil => intro w h; exact h
  | cons e events ih =>
    intro w h
    exact ih (w.step e) (indexValid_step w e h)

/-- C20: in every state reached from the initial state by any sequence of
session events (page loads that succeed or fail, setFilter, setCountry,
nextReview, prevReview, importReview, skipReview, and the others), the cursor
is a valid index into the view: below the view length when the view is
non-empty and 0 when it is empty; and it is 0 right after every applyFilter. -/
theorem currentIndex_valid_in_reachable_states :
    (∀ (sessionId : String) (events : List Event),
      (((World.initial sessionId).run events).client.reviews ≠ [] →
        ((World.initial sessionId).run events).client.currentIndex <
          ((World.initial sessionId).run events).client.reviews.length) ∧
      (((World.initial sessionId).run events).client.reviews = [] →
        ((World.initial sessionId).run events).client.currentIndex = 0)) ∧
    (∀ s : Client, (applyFilter s).currentIndex = 0) ∧
    (∀ (s : Client) (filter country : String),
      (setFilter s filter).currentIndex = 0 ∧ (setCountry s country).currentIndex = 0) ∧
    (∀ (s : Client) (result : PageResult), result.success = true →
      (loadReviewsDone (Outcome.response result) s).1.currentIndex = 0) := by
  refine ⟨fun sessionId events => ?_, fun _ => rfl, fun _ _ _ => ⟨rfl, rfl⟩,
    fun s result h => ?_⟩
  · have h := indexValid_run events (World.initial sessionId) (Or.inl rfl)
    unfold IndexValid at h
    constructor
    · intro hne
      have hpos : 0 < ((World.initial sessionId).run events).client.reviews.length :=
        List.length_pos.mpr hne
      omega
    · intro hnil
      rw [hnil] at h
      simpa using h
  · simp only [loadReviewsDone, h, if_true]
    split_ifs <;> rfl

/-- Witness for C20: after the sample session (two page loads, cursor moves, an
import, a filter change, a skip) the view holds one review and the cursor is
at 0. -/
theorem currentIndex_valid_in_reachable_states_witness :
    ((World.initial "k3x9q2m1z").run sampleEvents).client.reviews = [sampleB] ∧
    ((World.initial "k3x9q2m1z").run sampleEvents).client.currentIndex = 0 ∧
    ((World.initial "k3x9q2m1z").run sampleEvents).client.currentIndex <
      ((World.initial "k3x9q2m1z").run sampleEvents).client.reviews.length ∧
    ((World.initial "k3x9q2m1z").run
      [Event.loadReviewsDone (Outcome.response samplePage),
       Event.nextReview]).client.currentIndex = 1 :=
  ⟨by decide, by decide,
    (currentIndex_valid_in_reachable_states.1 "k3x9q2m1z" sampleEvents).1 (by decide),
    by decide⟩

/-! ## Page detection -/

theorem matchesLongIdAt_iff (cs : List Char) :
    matchesLongIdAt cs = true ↔
      ∃ digits after : List Char, cs = digits ++ ".html".data ++ after ∧
        13 ≤ digits.length ∧ ∀ c ∈ digits, jsIsDigit c = true := by
  unfold matchesLongIdAt
  rw [Bool.and_eq_true, decide_eq_true_eq, decide_eq_true_eq]
  constructor
  · rintro ⟨hlen, after, hafter⟩
    refine ⟨cs.takeWhile jsIsDigit, after, ?_, hlen, fun c hc => List.mem_takeWhile_imp hc⟩
    rw [List.append_assoc, hafter, List.takeWhile_append_dropWhile]
  · rintro ⟨digits, after, rfl, hlen, hall⟩
    have hdot : ¬ jsIsDigit '.' = true := by decide
    have htake : (digits ++ ".html".data ++ after).takeWhile jsIsDigit = digits := by
      rw [List.append_assoc, List.takeWhile_append_of_pos hall]
      show digits ++ List.takeWhile jsIsDigit ('.' :: _) = digits
      rw [List.takeWhile_cons_of_neg hdot, List.append_nil]
    have hdrop : (digits ++ ".html".data ++ after).dropWhile jsIsDigit =
        ".html".data ++ after := by
      rw [List.append_assoc, List.dropWhile_append_of_pos hall]
      show List.dropWhile jsIsDigit ('.' :: _) = _
      rw [List.dropWhile_cons_of_neg hdot]
      rfl
    rw [htake, hdrop]
    exact ⟨hlen, List.prefix_append _ _⟩

theorem testLongId_iff (url : String) : testLongId url = true ↔ HasLongIdRun url := by
  unfold testLongId HasLongIdRun
  rw [List.any_eq_true]
  constructor
  · rintro ⟨cs, hmem, hmatch⟩
    obtain ⟨before, hbefore⟩ := (List.mem_tails cs url.data).mp hmem
    obtain ⟨digits, after, hcs, hlen, hall⟩ := (matchesLongIdAt_iff cs).mp hmatch
    refine ⟨before, digits, after, ?_, hlen, hall⟩
    rw [← hbefore, hcs]
    simp only [List.append_assoc]
  · rintro ⟨before, digits, after, hurl, hlen, hall⟩
    refine ⟨digits ++ ".html".data ++ after, ?_, ?_⟩
    · rw [List.mem_tails]
      exact ⟨before, by rw [hurl]; simp only [List.append_assoc]⟩
    · exact (matchesLongIdAt_iff _).mpr ⟨digits, after, rfl, hlen, hall⟩

/-- C21: isModalPage returns false for every URL that contains '/item/' and a
run of at least 13 digits immediately followed by '.html', whatever modal
indicators it also contains; for every other URL it returns true exactly when
'_immersiveMode=true', 'disableNav=YES' or '/ssr/' occurs in it. -/
theorem isModalPage_rule :
    (∀ url : String, jsIncludes url "/item/" = true → HasLongIdRun url →
      isModalPage url = false) ∧
    (∀ url : String, ¬ (jsIncludes url "/item/" = true ∧ HasLongIdRun url) →
      (isModalPage url = true ↔
        (jsIncludes url "_immersiveMode=true" = true ∨
         jsIncludes url "disableNav=YES" = true ∨
         jsIncludes url "/ssr/" = true))) := by
  constructor
  · intro url h1 h2
    unfold isModalPage
    rw [if_pos (by rw [Bool.and_eq_true]; exact ⟨h1, (testLongId_iff url).mpr h2⟩)]
  · intro url h
    unfold isModalPage
    rw [if_neg (by
      rw [Bool.and_eq_true, testLongId_iff]
      exact h)]
    simp only [Bool.or_eq_true, or_assoc]

/-- Witness for C21: a product URL carrying a modal flag is not a modal page,
a listing URL with a modal flag is one. -/
theorem isModalPage_rule_witness :
    isModalPage sampleProductUrl = false ∧
    jsIncludes sampleProductUrl "_immersiveMode=true" = true ∧
    isModalPage sampleModalUrl = true := by
  have hrun : HasLongIdRun sampleProductUrl :=
    ⟨"https://www.aliexpress.com/item/".data, "1005006123456789".data,
      "?_immersiveMode=true".data, by decide, by decide, by decide⟩
  have hitem : jsIncludes sampleProductUrl "/item/" = true := by decide
  have hnot : ¬ (jsIncludes sampleModalUrl "/item/" = true ∧ HasLongIdRun sampleModalUrl) := by
    intro h
    exact absurd h.1 (by decide)
  exact ⟨isModalPage_rule.1 sampleProductUrl hitem hrun, by decide,
    (isModalPage_rule.2 sampleModalUrl hnot).mpr (Or.inr (Or.inl (by decide)))⟩

/-! ## Inserting the control -/

theorem remainingAttempts_setTimeout (timer : Timer) (ts : List Timer) :
    remainingAttempts (setTimeout timer ts) = (11 - timer.attempt) + remainingAttempts ts := by
  induction ts with
  | nil => simp [setTimeout, remainingAttempts]
  | cons t ts ih =>
    unfold setTimeout
    split_ifs
    · simp only [remainingAttempts, List.map_cons, List.sum_cons] at ih ⊢
      omega
    · simp [remainingAttempts]

theorem mem_setTimeout (timer x : Timer) (ts : List Timer) :
    x ∈ setTimeout timer ts ↔ x = timer ∨ x ∈ ts := by
  induction ts with
  | nil => simp [setTimeout]
  | cons t ts ih =>
    unfold setTimeout
    split_ifs
    · simp only [List.mem_cons, ih]; tauto
    · simp only [List.mem_cons]

theorem tryAddButton_step (page : HostPage) (now attempt : Nat) (st : Injection)
    (ha : attempt ≤ 10) (hb : TimersBounded st) :
    TimersBounded (tryAddButton page now attempt st) ∧
    (tryAddButton page now attempt st).attempts = st.attempts + 1 ∧
    remainingAttempts (tryAddButton page now attempt st).pending ≤
      remainingAttempts st.pending + (10 - attempt) := by
  unfold tryAddButton
  simp only
  split_ifs with h1 h2 h3
  · exact ⟨hb, rfl, Nat.le_add_right _ _⟩
  · refine ⟨?_, rfl, ?_⟩
    · intro t ht
      rcases (mem_setTimeout _ t st.pending).mp ht with h | h
      · rw [h]; show attempt + 1 ≤ 10; omega
      · exact hb t h
    · show remainingAttempts (setTimeout _ st.pending) ≤ _
      rw [remainingAttempts_setTimeout]
      show 11 - (attempt + 1) + remainingAttempts st.pending ≤ _
      omega
  · exact ⟨hb, rfl, Nat.le_add_right _ _⟩
  · exact ⟨hb, rfl, Nat.le_add_right _ _⟩

theorem fireNext_step (page : HostPage) (st : Injection) (hb : TimersBounded st) :
    TimersBounded (fireNext page st) ∧
    (fireNext page st).attempts + remainingAttempts (fireNext page st).pending ≤
      st.attempts + remainingAttempts st.pending ∧
    remainingAttempts (fireNext page st).pending ≤ remainingAttempts st.pending - 1 := by
  unfold fireNext
  cases hp : st.pending with
  | nil =>
    simp only
    refine ⟨hb, ?_, ?_⟩ <;> simp [hp, remainingAttempts]
  | cons t ts =>
    simp only
    have hta : t.attempt ≤ 10 := hb t (by rw [hp]; exact List.mem_cons_self _ _)
    have hbs : TimersBounded { st with pending := ts } := fun x hx =>
      hb x (by rw [hp]; exact List.mem_cons_of_mem _ hx)
    obtain ⟨h1, h2, h3⟩ := tryAddButton_step page t.due t.attempt { st with pending := ts }
      hta hbs
    have hsum : remainingAttempts (t :: ts) = (11 - t.attempt) + remainingAttempts ts := by
      simp [remainingAttempts]
    refine ⟨h1, ?_, ?_⟩
    · rw [h2, hsum]
      have h3b : remainingAttempts
          (tryAddButton page t.due t.attempt { st with pending := ts }).pending ≤
          remainingAttempts ts + (10 - t.attempt) := h3
      show st.attempts + 1 + _ ≤ _
      omega
    · rw [hsum]
      have h3b : remainingAttempts
          (tryAddButton page t.due t.attempt { st with pending := ts }).pending ≤
          remainingAttempts ts + (10 - t.attempt) := h3
      omega

theorem runTimers_step (page : HostPage) (n : Nat) :
    ∀ st : Injection, TimersBounded st →
      TimersBounded (runTimers page n st) ∧
      (runTimers page n st).attempts + remainingAttempts (runTimers page n st).pending ≤
        st.attempts + remainingAttempts st.pending ∧
      remainingAttempts (runTimers page n st).pending ≤ remainingAttempts st.pending - n := by
  induction n with
  | zero => intro st hb; exact ⟨hb, le_refl _, le_refl _⟩
  | succ n ih =>
    intro st hb
    obtain ⟨h1, h2, h3⟩ := fireNext_step page st hb
    obtain ⟨k1, k2, k3⟩ := ih (fireNext page st) h1
    have e : runTimers page (n + 1) st = runTimers page n (fireNext page st) := rfl
    rw [e]
    exact ⟨k1, by omega, by omega⟩

theorem pending_nil_of_remaining (st : Injection) (hb : TimersBounded st)
    (h : remainingAttempts st.pending = 0) : st.pending = [] := by
  cases hp : st.pending with
  | nil => rfl
  | cons t ts =>
    exfalso
    have hta : t.attempt ≤ 10 := hb t (by rw [hp]; exact List.mem_cons_self _ _)
    rw [hp] at h
    simp only [remainingAttempts, List.map_cons, List.sum_cons] at h
    omega

theorem runTimers_of_no_pending (page : HostPage) (n : Nat) (st : Injection)
    (h : st.pending = []) : runTimers page n st = st := by
  induction n with
  | zero => rfl
  | succ n ih =>
    show runTimers page n (fireNext page st) = st
    have hf : fireNext page st = st := by
      unfold fireNext
      rw [h]
    rw [hf, ih]

theorem runTimers_add (page : HostPage) (m n : Nat) :
    ∀ st : Injection, runTimers page (m + n) st = runTimers page n (runTimers page m st) := by
  induction m with
  | zero => intro st; simp [runTimers]
  | succ m ih =>
    intro st
    show runTimers page (m + 1 + n) st = runTimers page n (runTimers page m (fireNext page st))
    rw [← ih]
    have : m + 1 + n = (m + n) + 1 := by omega
    rw [this]
    rfl

theorem addSakuraButton_start (page : HostPage) (now inTab inBody : Nat) :
    TimersBounded (addSakuraButton page now
      { pending := [], attempts := 0, inReviewTab := inTab, inModalBody := inBody }) ∧
    (addSakuraButton page now
      { pending := [], attempts := 0, inReviewTab := inTab, inModalBody := inBody }).attempts = 1 ∧
    remainingAttempts (addSakuraButton page now
      { pending := [], attempts := 0, inReviewTab := inTab,
        inModalBody := inBody }).pending ≤ 20 := by
  have hb0 : TimersBounded
      { pending := [], attempts := 0, inReviewTab := inTab, inModalBody := inBody } := by
    intro t ht
    simp at ht
  obtain ⟨h1, h2, h3⟩ := tryAddButton_step page now 1 _ (by omega) hb0
  unfold addSakuraButton
  simp only
  refine ⟨?_, h2, ?_⟩
  · intro t ht
    rcases (mem_setTimeout _ t _).mp ht with h | h
    · rw [h]; show 7 ≤ 10; omega
    · rcases (mem_setTimeout _ t _).mp h with h | h
      · rw [h]; show 4 ≤ 10; omega
      · exact h1 t h
  · show remainingAttempts (setTimeout _ (setTimeout _ _)) ≤ 20
    rw [remainingAttempts_setTimeout, remainingAttempts_setTimeout]
    have h3b : remainingAttempts (tryAddButton page now 1
        { pending := [], attempts := 0, inReviewTab := inTab,
          inModalBody := inBody }).pending ≤ 0 + (10 - 1) := h3
    show 11 - 7 + (11 - 4 + _) ≤ 20
    omega

/-- C22 (counterexample): on a page whose review tab never appears, one call of
addSakuraButton leads to 21 invocations of tryAddButton, more than 10: ten by
the immediate chain, seven by the chain started at attempt number 4 and four
by the chain started at attempt number 7. -/
theorem addSakuraButton_makes_21_attempts :
    (runTimers pageWithoutReviewTab 20
      (addSakuraButton pageWithoutReviewTab 0 Injection.idle)).attempts = 21 ∧
    (runTimers pageWithoutReviewTab 20
      (addSakuraButton pageWithoutReviewTab 0 Injection.idle)).pending = [] ∧
    (runTimers pageWithoutReviewTab 9
      (addSakuraButton pageWithoutReviewTab 0 Injection.idle)).attempts = 10 ∧
    (runTimers pageWithoutReviewTab 9
      (addSakuraButton pageWithoutReviewTab 0 Injection.idle)).pending ≠ [] ∧
    ¬ (runTimers pageWithoutReviewTab 20
      (addSakuraButton pageWithoutReviewTab 0 Injection.idle)).attempts ≤ 10 := by
  refine ⟨by decide, by decide, by decide, by decide, by decide⟩

/-- C22 (amended): for every behaviour of the page, one call of addSakuraButton
performs at most 21 invocations of tryAddButton in total (three chains, started
at attempt numbers 1, 4 and 7, each ending at attempt number 10 at the latest)
and then stops: once 20 timers have fired no timer is pending, and letting the
event loop run longer changes nothing. -/
theorem addSakuraButton_attempts_bounded (page : HostPage) (now inTab inBody : Nat) :
    (runTimers page 20 (addSakuraButton page now
      { pending := [], attempts := 0, inReviewTab := inTab,
        inModalBody := inBody })).pending = [] ∧
    (runTimers page 20 (addSakuraButton page now
      { pending := [], attempts := 0, inReviewTab := inTab,
        inModalBody := inBody })).attempts ≤ 21 ∧
    (∀ n : Nat, runTimers page (20 + n) (addSakuraButton page now
        { pending := [], attempts := 0, inReviewTab := inTab, inModalBody := inBody }) =
      runTimers page 20 (addSakuraButton page now
        { pending := [], attempts := 0, inReviewTab := inTab, inModalBody := inBody })) := by
  obtain ⟨h1, h2, h3⟩ := addSakuraButton_start page now inTab inBody
  obtain ⟨k1, k2, k3⟩ := runTimers_step page 20 _ h1
  have hnil := pending_nil_of_remaining _ k1 (by omega)
  refine ⟨hnil, by omega, fun n => ?_⟩
  rw [runTimers_add, runTimers_of_no_pending page n _ hnil]

/-- C28 (the code departs from the claim): on a page whose review tab never
appears and whose modal body is there, once all attempts started by one call of
addSakuraButton have run, three controls stand in the modal body, one per
chain; with the review tab there from the start a single control is left. -/
theorem addSakuraButton_fallback_inserts_three :
    (runTimers pageWithoutReviewTab 20
      (addSakuraButton pageWithoutReviewTab 0 Injection.idle)).pending = [] ∧
    (runTimers pageWithoutReviewTab 20
      (addSakuraButton pageWithoutReviewTab 0 Injection.idle)).inModalBody = 3 ∧
    (runTimers pageWithoutReviewTab 20
      (addSakuraButton pageWithoutReviewTab 0 Injection.idle)).inReviewTab = 0 ∧
    (runTimers pageWithReviewTab 20
      (addSakuraButton pageWithReviewTab 0 Injection.idle)).inReviewTab = 1 ∧
    (runTimers pageWithReviewTab 20
      (addSakuraButton pageWithReviewTab 0 Injection.idle)).inModalBody = 0 := by
  refine ⟨by decide, by decide, by decide, by decide, by decide⟩

/-! ## The click listener -/

theorem setupProductClickListener_iterate (hostListeners : List Listener)
    (hhost : ∀ l ∈ hostListeners, l.isClientClick = false) (n : Nat) :
    setupProductClickListener^[n + 1] (ModalState.fresh hostListeners) =
      { listeners := hostListeners ++
          [{ eventType := "click", handler := Handler.client n, capture := true }]
        modalClickHandler := some n
        created := n + 1 } := by
  have hnot : ∀ k : Nat,
      ({ eventType := "click", handler := Handler.client k, capture := true } : Listener) ∉
        hostListeners := by
    intro k hk
    have := hhost _ hk
    simp [Listener.isClientClick] at this
  induction n with
  | zero =>
    simp only [Function.iterate_succ, Function.iterate_zero, Function.comp_apply,
      setupProductClickListener, ModalState.fresh, addEventListener]
    rw [if_neg (hnot 0)]
    rfl
  | succ n ih =>
    rw [Function.iterate_succ_apply', ih]
    simp only [setupProductClickListener, removeEventListener, addEventListener]
    have herase : (hostListeners ++
        [({ eventType := "click", handler := Handler.client n, capture := true } : Listener)]).erase
        { eventType := "click", handler := Handler.client n, capture := true } = hostListeners := by
      rw [List.erase_append_right _ (hnot n)]
      simp
    rw [herase, if_neg (hnot (n + 1))]

/-- C23: after one or more calls of setupProductClickListener on the same
client, starting from a page body that holds listeners of the host page only,
exactly one click listener of the client is attached, the capture listener of
the last call, next to the untouched host listeners; so one click on a valid
product triggers exactly one addSakuraButton call. -/
theorem setupProductClickListener_single_listener (hostListeners : List Listener)
    (hhost : ∀ l ∈ hostListeners, l.isClientClick = false) (n : Nat) :
    (setupProductClickListener^[n + 1] (ModalState.fresh hostListeners)).listeners =
      hostListeners ++
        [{ eventType := "click", handler := Handler.client n, capture := true }] ∧
    (setupProductClickListener^[n + 1]
      (ModalState.fresh hostListeners)).listeners.countP Listener.isClientClick = 1 ∧
    (∀ productId : String, isValidProductId productId = true →
      clickCalls (setupProductClickListener^[n + 1] (ModalState.fresh hostListeners))
        productId = 1) := by
  have hcount : (hostListeners ++
      [({ eventType := "click", handler := Handler.client n, capture := true } : Listener)]).countP
      Listener.isClientClick = 1 := by
    rw [List.countP_append, List.countP_eq_zero.mpr (fun l hl => by simp [hhost l hl])]
    simp [Listener.isClientClick]
  rw [setupProductClickListener_iterate hostListeners hhost n]
  refine ⟨rfl, hcount, fun productId hvalid => ?_⟩
  unfold clickCalls
  rw [if_pos hvalid]
  exact hcount

/-- Witness for C23: three calls on a page with one host listener leave the
host listener and the capture listener of the third call, and a click on
product 1005006123456789 triggers one call. -/
theorem setupProductClickListener_single_listener_witness :
    (setupProductClickListener^[3] (ModalState.fresh [sampleHostListener])).listeners =
      [sampleHostListener,
       { eventType := "click", handler := Handler.client 2, capture := true }] ∧
    clickCalls (setupProductClickListener^[3] (ModalState.fresh [sampleHostListener]))
      "1005006123456789" = 1 :=
  ⟨(setupProductClickListener_single_listener [sampleHostListener] (by decide) 2).1,
    (setupProductClickListener_single_listener [sampleHostListener] (by decide) 2).2.2
      "1005006123456789" (by decide)⟩

/-- C27 (the code departs from the claim): after setupProductClickListener and
then close, the capture listener of the client is still attached to the page
body, since close asks to remove a listener without the capture flag, and a
click on a valid product still triggers one addSakuraButton call; as close has
cleared modalClickHandler, a later setupProductClickListener adds a second
listener without removing the first. -/
theorem close_leaves_capture_listener :
    (close (setupProductClickListener (ModalState.fresh []))).listeners =
      [{ eventType := "click", handler := Handler.client 0, capture := true }] ∧
    (close (setupProductClickListener (ModalState.fresh []))).modalClickHandler = none ∧
    clickCalls (close (setupProductClickListener (ModalState.fresh [])))
      "1005006123456789" = 1 ∧
    clickCalls (setupProductClickListener
      (close (setupProductClickListener (ModalState.fresh [])))) "1005006123456789" = 2 := by
  refine ⟨by decide, by decide, by decide, by decide⟩

/-! ## Client-side extraction -/

set_option maxRecDepth 20000 in
theorem samplePlaceholderSrc_kept :
    keepsDomImage samplePlaceholderSrc = true ∧
    jsIncludes samplePlaceholderSrc "placeholder" = true := by
  refine ⟨by decide, by decide⟩

/-- C24 (counterexample): scrapeAmazon keeps the source of a review image
whatever it contains, here 'avatar'; and scrapeAliExpressDom keeps a source
that contains 'placeholder'. -/
theorem scraped_images_may_contain_avatar :
    sampleAmazonSrc ∈ scrapeAmazonImages [sampleAmazonSrc] ∧
    jsIncludes sampleAmazonSrc "avatar" = true ∧
    samplePlaceholderSrc ∈ scrapeAliExpressDomImages
      [{ insideItemPhoto := false, src := samplePlaceholderSrc, dataSrc := "" }] ∧
    jsIncludes samplePlaceholderSrc "placeholder" = true := by
  refine ⟨by decide, by decide, ?_, samplePlaceholderSrc_kept.2⟩
  simp only [scrapeAliExpressDomImages, List.filter, Bool.not_false, List.map, ImgElement.source]
  rw [if_pos (by decide), samplePlaceholderSrc_kept.1]
  exact List.mem_singleton.mpr rfl

/-- C24 (amended): no image kept by the structured strategy of scrapeAliExpress
contains 'avatar', 'icon' or 'placeholder'; no image kept by
scrapeAliExpressDom contains 'avatar' or 'icon'; scrapeAmazon keeps the source
of every review image as it is; and in all three the images keep the order of
the raw source. -/
theorem scraped_images_filtered :
    (∀ (images : List RawImage) (u : String), u ∈ scrapeAliExpressImages images →
      jsIncludes u "avatar" = false ∧ jsIncludes u "icon" = false ∧
      jsIncludes u "placeholder" = false) ∧
    (∀ images : List RawImage,
      (scrapeAliExpressImages images).Sublist (images.map RawImage.imgUrl)) ∧
    (∀ (imgs : List ImgElement) (u : String), u ∈ scrapeAliExpressDomImages imgs →
      jsIncludes u "avatar" = false ∧ jsIncludes u "icon" = false) ∧
    (∀ imgs : List ImgElement,
      (scrapeAliExpressDomImages imgs).Sublist (imgs.map ImgElement.source)) ∧
    (∀ srcs : List String, scrapeAmazonImages srcs = srcs) := by
  refine ⟨fun images u hu => ?_, fun images => List.filter_sublist _, fun imgs u hu => ?_,
    fun imgs => ?_, fun _ => rfl⟩
  · have h := (List.mem_filter.mp hu).2
    simp only [keepsFeedbackImage, Bool.and_eq_true, Bool.not_eq_true'] at h
    exact ⟨h.1.1.2, h.1.2, h.2⟩
  · have h := (List.mem_filter.mp hu).2
    simp only [keepsDomImage, Bool.and_eq_true, Bool.not_eq_true'] at h
    exact ⟨h.1.1.1.2, h.1.1.2⟩
  · exact (List.filter_sublist _).trans ((List.filter_sublist _).map _)

/-- Witness for C24 (amended): of an avatar URL and a photo URL the structured
strategy keeps the photo, which contains none of the three words. -/
theorem scraped_images_filtered_witness :
    scrapeAliExpressImages
      [RawImage.text "https://ae01.alicdn.com/kf/aliexpress-avatar.jpg",
       RawImage.object "" sampleFeedbackUrl ""] = [sampleFeedbackUrl] ∧
    (jsIncludes sampleFeedbackUrl "avatar" = false ∧
      jsIncludes sampleFeedbackUrl "icon" = false ∧
      jsIncludes sampleFeedbackUrl "placeholder" = false) :=
  ⟨by decide,
    scraped_images_filtered.1
      [RawImage.text "https://ae01.alicdn.com/kf/aliexpress-avatar.jpg",
       RawImage.object "" sampleFeedbackUrl ""] sampleFeedbackUrl (by decide)⟩

theorem selectorLoop_first_in_range {α : Type} (skipped : List (List α)) (found : List α)
    (rest : List (List α)) (bodySearch : List α)
    (hskipped : ∀ c ∈ skipped, ¬ (0 < c.length ∧ c.length < 100))
    (hfound : 0 < found.length ∧ found.length < 100) :
    reviewElementsOf (skipped ++ found :: rest) bodySearch = found := by
  have hloop : ∀ (cs : List (List α)) (cur : List α),
      (∀ c ∈ cs, ¬ (0 < c.length ∧ c.length < 100)) →
      selectorLoop (cs ++ found :: rest) cur = found := by
    intro cs
    induction cs with
    | nil =>
      intro cur _
      simp only [List.nil_append, selectorLoop]
      rw [if_pos hfound]
    | cons c cs ih =>
      intro cur hcs
      simp only [List.cons_append, selectorLoop]
      rw [if_neg (hcs c (List.mem_cons_self _ _))]
      exact ih c (fun x hx => hcs x (List.mem_cons_of_mem _ hx))
  unfold reviewElementsOf
  simp only
  rw [hloop skipped [] hskipped, if_neg (by omega)]

/-- C25 (the code departs from the claim): when the first three selectors
match nothing and the fourth matches 100 nodes, no candidate has a count from
1 to 99, yet the nodes used are the 100 nodes of the fourth selector, not those
of the body search; the body search is used when the last selector matches
nothing. -/
theorem reviewElementsOf_uses_last_candidate :
    reviewElementsOf [[], [], [], List.range 100] [1000, 1001] = List.range 100 ∧
    (List.range 100).length = 100 ∧
    reviewElementsOf [[], [], [], List.range 100] [1000, 1001] ≠ [1000, 1001] ∧
    reviewElementsOf [List.range 100, [], [], []] [1000, 1001] = [1000, 1001] ∧
    reviewElementsOf [[], [5, 6], List.range 100, [8]] [1000, 1001] = [5, 6] := by
  have h1 : reviewElementsOf [[], [], [], List.range 100] [1000, 1001] = List.range 100 := by
    simp [reviewElementsOf, selectorLoop]
  refine ⟨h1, List.length_range 100, ?_, ?_, ?_⟩
  · rw [h1]
    intro h
    have h2 := congrArg List.length h
    simp at h2
  · simp [reviewElementsOf, selectorLoop]
  · simp [reviewElementsOf, selectorLoop]

/-! ## The fallback of loadReviews -/

theorem categoryFilter_ai (l : List Review) :
    categoryFilter "ai_recommended" l = l.filter (fun r => r.ai_recommended) := by
  simp [categoryFilter]

/-- C26: on every successful loadReviews, if currentFilter is ai_recommended
and fewer than 3 reviews of the response are recommended, then afterwards
currentFilter is all, useSmartSort is true and the view is smartSort of the
response reviews that pass the country filter; in every other case
currentFilter is unchanged and useSmartSort is false; and under ai_recommended
with 3 or more recommended reviews the view holds exactly the recommended
reviews that pass the country filter, sorted. -/
theorem loadReviewsDone_smart_fallback :
    (∀ (s : Client) (result : PageResult), result.success = true →
      s.currentFilter = "ai_recommended" →
      (result.reviews.filter (fun r => r.ai_recommended)).length < 3 →
      (loadReviewsDone (Outcome.response result) s).1.currentFilter = "all" ∧
      (loadReviewsDone (Outcome.response result) s).1.useSmartSort = some true ∧
      (loadReviewsDone (Outcome.response result) s).1.reviews =
        smartSort (countryFilter s.selectedCountry result.reviews)) ∧
    (∀ (s : Client) (result : PageResult), result.success = true →
      ¬ (s.currentFilter = "ai_recommended" ∧
        (result.reviews.filter (fun r => r.ai_recommended)).length < 3) →
      (loadReviewsDone (Outcome.response result) s).1.currentFilter = s.currentFilter ∧
      (loadReviewsDone (Outcome.response result) s).1.useSmartSort = some false) ∧
    (∀ (s : Client) (result : PageResult), result.success = true →
      s.currentFilter = "ai_recommended" →
      3 ≤ (result.reviews.filter (fun r => r.ai_recommended)).length →
      (loadReviewsDone (Outcome.response result) s).1.reviews =
        smartSort (countryFilter s.selectedCountry
          (result.reviews.filter (fun r => r.ai_recommended))) ∧
      (∀ r, r ∈ (loadReviewsDone (Outcome.response result) s).1.reviews ↔
        (r ∈ result.reviews ∧ r.ai_recommended = true ∧
          specCountryPredicate s.selectedCountry r = true))) := by
  refine ⟨fun s result h hf hc => ?_, fun s result h hn => ?_, fun s result h hf hc => ?_⟩
  · simp only [loadReviewsDone, h, if_true]
    split_ifs <;> first
      | exact ⟨rfl, rfl, by rw [applyFilter_reviews]; simp only [categoryFilter_all]⟩
      | exact absurd (And.intro hf hc) (by assumption)
  · simp only [loadReviewsDone, h, if_true]
    split_ifs <;> exact ⟨rfl, rfl⟩
  · have hv : (loadReviewsDone (Outcome.response result) s).1.reviews =
        smartSort (countryFilter s.selectedCountry
          (result.reviews.filter (fun r => r.ai_recommended))) := by
      simp only [loadReviewsDone, h, if_true]
      split_ifs <;> first
        | (exfalso; omega)
        | (rw [applyFilter_reviews]
           show smartSort (countryFilter s.selectedCountry
             (categoryFilter s.currentFilter result.reviews)) = _
           rw [hf, categoryFilter_ai])
    refine ⟨hv, fun r => ?_⟩
    rw [hv, (smartSort_perm _).mem_iff, countryFilter_eq_filter, List.mem_filter,
      List.mem_filter]
    tauto

/-- Witness for C26: under ai_recommended the sample page, with one
recommended review of two, falls back to all; under photos nothing changes. -/
theorem loadReviewsDone_smart_fallback_witness :
    (loadReviewsDone (Outcome.response samplePage)
      { sampleLoadedClient with currentFilter := "ai_recommended" }).1.currentFilter = "all" ∧
    (loadReviewsDone (Outcome.response samplePage)
      { sampleLoadedClient with currentFilter := "ai_recommended" }).1.useSmartSort
        = some true ∧
    (loadReviewsDone (Outcome.response samplePage)
      { sampleLoadedClient with currentFilter := "ai_recommended" }).1.reviews =
        [sampleA, sampleB] ∧
    (loadReviewsDone (Outcome.response samplePage)
      { sampleLoadedClient with currentFilter := "photos" }).1.currentFilter = "photos" := by
  have h := loadReviewsDone_smart_fallback.1
    { sampleLoadedClient with currentFilter := "ai_recommended" } samplePage rfl rfl (by decide)
  have h2 := loadReviewsDone_smart_fallback.2.1
    { sampleLoadedClient with currentFilter := "photos" } samplePage rfl (by decide)
  refine ⟨h.1, h.2.1, ?_, h2.1⟩
  rw [h.2.2]
  decide

/-! ## Stars shown -/

theorem ceil_div_twenty (r : Int) : Int.ceil ((r : ℚ) / 20) = (r + 19) / 20 := by
  rw [Int.ceil_eq_iff]
  have h1 : 20 * ((r + 19) / 20) ≤ r + 19 := by omega
  have h2 : r ≤ 20 * ((r + 19) / 20) := by omega
  have h1q : (20 : ℚ) * (((r + 19) / 20 : Int) : ℚ) ≤ (r : ℚ) + 19 := by exact_mod_cast h1
  have h2q : (r : ℚ) ≤ 20 * (((r + 19) / 20 : Int) : ℚ) := by exact_mod_cast h2
  constructor <;> linarith

theorem renderStars_eq (r : Int) (h0 : 0 ≤ r) :
    renderStars r =
      some ((min ((r + 19) / 20) 5).toNat, (5 - min ((r + 19) / 20) 5).toNat) := by
  unfold renderStars
  simp only [ceil_div_twenty]
  rw [if_neg (by omega)]

theorem renderStars_of_score (r : Int) (h5 : 5 < r) (h100 : r ≤ 100) :
    renderStars r = some ((normalizedStar r).toNat, 5 - (normalizedStar r).toNat) := by
  rw [renderStars_eq r (by omega), normalizedStar_of_gt r h5]
  have h1 : (r + 19) / 20 ≤ 5 := by omega
  have h2 : 0 ≤ (r + 19) / 20 := by omega
  rw [min_eq_left h1]
  congr 2
  omega

/-- C29 (the code departs from the claim): a review stored with rating 4 on
the 1-5 scale, whose normalised star is 4, is shown by renderStars with 1
filled star and 4 empty ones; the ratings 2, 3 and 5 also show 1 filled star.
For the score 85, normalised to 5, five filled stars are shown. -/
theorem renderStars_ignores_star_scale :
    normalizedStar 4 = 4 ∧ renderStars 4 = some (1, 4) ∧
    renderStars 2 = some (1, 4) ∧ renderStars 3 = some (1, 4) ∧
    renderStars 5 = some (1, 4) ∧ normalizedStar 5 = 5 ∧
    renderStars 85 = some (5, 0) ∧ normalizedStar 85 = 5 := by
  refine ⟨normalizedStar_of_le 4 (by decide), ?_, ?_, ?_, ?_,
    normalizedStar_of_le 5 (by decide), ?_, ?_⟩
  · rw [renderStars_eq 4 (by decide)]; decide
  · rw [renderStars_eq 2 (by decide)]; decide
  · rw [renderStars_eq 3 (by decide)]; decide
  · rw [renderStars_eq 5 (by decide)]; decide
  · rw [renderStars_eq 85 (by decide)]; decide
  · rw [normalizedStar_of_gt 85 (by decide)]; decide

/-! ## Arrays by reference -/

theorem read_alloc_old (h : Heap) (content : List Review) (r : Nat)
    (hr : r < h.arrays.length) : (h.alloc content).1.read r = h.read r := by
  simp [Heap.read, Heap.alloc, List.getD_eq_getElem?_getD, List.getElem?_append_left hr]

theorem read_alloc_new (h : Heap) (content : List Review) :
    (h.alloc content).1.read (h.alloc content).2 = content := by
  simp [Heap.read, Heap.alloc, List.getD_eq_getElem?_getD]

theorem read_write_ne (h : Heap) (content : List Review) (ref r : Nat) (hne : ref ≠ r) :
    (h.write ref content).read r = h.read r := by
  simp [Heap.read, Heap.write, List.getD_eq_getElem?_getD, List.getElem?_set_ne hne]

theorem read_write_same (h : Heap) (content : List Review) (ref : Nat)
    (hr : ref < h.arrays.length) : (h.write ref content).read ref = content := by
  simp [Heap.read, Heap.write, List.getD_eq_getElem?_getD, hr]

theorem freshArray_alloc (h : Heap) (content : List Review) :
    FreshArray h (h.alloc content).1 (h.alloc content).2 content :=
  ⟨fun r hr => read_alloc_old h content r hr, le_refl _, by simp [Heap.alloc],
    read_alloc_new h content⟩

theorem freshArray_filter (h h2 : Heap) (ref : Nat) (content : List Review)
    (p : Review → Bool) (hf : FreshArray h h2 ref content) :
    FreshArray h (h2.filter ref p).1 (h2.filter ref p).2 (content.filter p) := by
  obtain ⟨h1, hle, hlt, hread⟩ := hf
  unfold Heap.filter
  refine ⟨fun r hr => ?_, ?_, by simp [Heap.alloc], ?_⟩
  · rw [read_alloc_old h2 _ r (by omega)]
    exact h1 r hr
  · show h.arrays.length ≤ h2.arrays.length
    omega
  · rw [read_alloc_new, hread]

theorem freshArray_sort (h h2 : Heap) (ref : Nat) (content : List Review)
    (hf : FreshArray h h2 ref content) :
    FreshArray h (smartSortInPlace h2 ref).1 (smartSortInPlace h2 ref).2
      (smartSort content) := by
  obtain ⟨h1, hle, hlt, hread⟩ := hf
  unfold smartSortInPlace
  refine ⟨fun r hr => ?_, hle, by simpa [Heap.write] using hlt, ?_⟩
  · rw [read_write_ne h2 _ ref r (by omega)]
    exact h1 r hr
  · rw [read_write_same h2 _ ref hlt, hread]

theorem freshArray_category (h h2 : Heap) (ref : Nat) (content : List Review)
    (currentFilter : String) (hf : FreshArray h h2 ref content) :
    FreshArray h (categoryFilterInPlace h2 ref currentFilter).1
      (categoryFilterInPlace h2 ref currentFilter).2 (categoryFilter currentFilter content) := by
  unfold categoryFilterInPlace categoryFilter
  split_ifs <;> first | exact freshArray_filter _ _ _ _ _ hf | exact hf

theorem freshArray_country (h h2 : Heap) (ref : Nat) (content : List Review)
    (selectedCountry : String) (hf : FreshArray h h2 ref content) :
    FreshArray h (countryFilterInPlace h2 ref selectedCountry).1
      (countryFilterInPlace h2 ref selectedCountry).2
      (countryFilter selectedCountry content) := by
  unfold countryFilterInPlace countryFilter
  split_ifs <;> first | exact freshArray_filter _ _ _ _ _ hf | exact hf

theorem applyFilterInPlace_fresh (h : Heap) (allReviews : Nat)
    (currentFilter selectedCountry : String) :
    FreshArray h (applyFilterInPlace h allReviews currentFilter selectedCountry).1
      (applyFilterInPlace h allReviews currentFilter selectedCountry).2
      (smartSort (countryFilter selectedCountry
        (categoryFilter currentFilter (h.read allReviews)))) := by
  unfold applyFilterInPlace
  simp only
  apply freshArray_sort
  apply freshArray_country
  apply freshArray_category
  exact freshArray_alloc h (h.read allReviews)

/-- C30: applyFilter never changes allReviews.  On arrays by reference, the
array assigned to the view is a new array, the in-place sort acts on it only,
and the array allReviews (like every array that existed before) holds the same
sequence afterwards; the view so computed is the view of applyFilter.  The
same holds of setFilter, setCountry, nextReview and prevReview. -/
theorem applyFilter_keeps_allReviews :
    (∀ (h : Heap) (allReviews : Nat) (filter country : String),
      allReviews < h.arrays.length →
      (applyFilterInPlace h allReviews filter country).1.read allReviews = h.read allReviews ∧
      (applyFilterInPlace h allReviews filter country).2 ≠ allReviews ∧
      (∀ ref, ref < h.arrays.length →
        (applyFilterInPlace h allReviews filter country).1.read ref = h.read ref)) ∧
    (∀ s : Client,
      (applyFilterInPlace { arrays := [s.allReviews] } 0 s.currentFilter
        s.selectedCountry).1.read
        (applyFilterInPlace { arrays := [s.allReviews] } 0 s.currentFilter
          s.selectedCountry).2 = (applyFilter s).reviews) ∧
    (∀ (s : Client) (filter country : String),
      (applyFilter s).allReviews = s.allReviews ∧
      (setFilter s filter).allReviews = s.allReviews ∧
      (setCountry s country).allReviews = s.allReviews ∧
      (nextReview s).1.allReviews = s.allReviews ∧
      (prevReview s).allReviews = s.allReviews) := by
  refine ⟨fun h allReviews filter country hlt => ?_, fun s => ?_, fun s filter country => ?_⟩
  · obtain ⟨h1, hle, _, _⟩ := applyFilterInPlace_fresh h allReviews filter country
    exact ⟨h1 allReviews hlt, by omega, h1⟩
  · obtain ⟨_, _, _, hread⟩ := applyFilterInPlace_fresh { arrays := [s.allReviews] } 0
      s.currentFilter s.selectedCountry
    rw [hread, applyFilter_reviews]
    rfl
  · refine ⟨rfl, rfl, rfl, ?_, ?_⟩
    · unfold nextReview
      split_ifs <;> rfl
    · unfold prevReview
      split_ifs <;> rfl

/-- Witness for C30: on the heap holding the two sample reviews at reference
0, the view is a new array at reference 1, sorted, and array 0 is as before. -/
theorem applyFilter_keeps_allReviews_witness :
    (applyFilterInPlace sampleHeap 0 "all" "all").1.read 0 = [sampleB, sampleA] ∧
    (applyFilterInPlace sampleHeap 0 "all" "all").2 = 1 ∧
    (applyFilterInPlace sampleHeap 0 "all" "all").1.read 1 = [sampleA, sampleB] :=
  ⟨(applyFilter_keeps_allReviews.1 sampleHeap 0 "all" "all" (by decide)).1,
    by decide, by decide⟩

end ReviewKing
